import Mathlib

/-!
Verification of the source-tree generator `lod.py`.

The program synthesizes a tree of C++ source files (leaf translation units
grouped into static libraries, linked into one executable) together with a
Ninja build description.  We shallowly embed the pure core of the program:
decimal formatting and zero padding, path construction (`os.path.join`,
`os.path.basename`, `str.replace`), the partitioner
(`get_num_libraries_to_build`, `get_lib_src_indices`), the text of every
generated file, and the generated Ninja build plan.  File writes are modelled
as an ordered list of (path, contents) pairs; a run that raises an exception
is modelled by the flag `false` together with the writes performed before the
exception.
-/

/-! ### Python string primitives -/

/-- Decimal representation of a natural number, as produced by Python's
`str(n)`: the base-10 digits, most significant first, and `"0"` for `0`. -/
def pyStr (n : Nat) : String :=
  if n = 0 then "0" else String.mk (((Nat.digits 10 n).map Nat.digitChar).reverse)

/-- Python's `f"{n:0{width}}"` for a nonnegative integer: the decimal
representation of `n`, left-padded with zeros to `width` characters (kept
as-is when already longer). -/
def pad (n width : Nat) : String :=
  String.mk (List.replicate (width - (pyStr n).length) '0') ++ pyStr n

/-- Python's `os.path.join a b` (posix): `b` if `b` is absolute, `a ++ b` if
`a` is empty or ends in a slash, and `a ++ "/" ++ b` otherwise. -/
def pyJoin (a b : String) : String :=
  if b.data.head? = some '/' then b
  else if a.data = [] ∨ a.data.getLast? = some '/' then a ++ b
  else a ++ "/" ++ b

/-- Python's `str.replace pat rep` on character lists: replace the leftmost
occurrence of `pat`, continue scanning after the inserted replacement.
(Only used with the nonempty pattern `".cpp"`; for an empty pattern this
returns the input unchanged.) -/
def replaceList (pat rep : List Char) : List Char → List Char
  | [] => []
  | c :: cs =>
    if pat.isPrefixOf (c :: cs) ∧ pat ≠ [] then
      rep ++ replaceList pat rep ((c :: cs).drop pat.length)
    else
      c :: replaceList pat rep cs
termination_by l => l.length
decreasing_by
  · simp only [List.length_drop, List.length_cons]
    have : pat ≠ [] := by tauto
    have : 0 < pat.length := List.length_pos.mpr this
    omega
  · simp [Nat.lt_succ_iff]

/-- Python's `str.replace` lifted to `String`. -/
def pyReplace (s pat rep : String) : String :=
  String.mk (replaceList pat.data rep.data s.data)

/-- Python's `os.path.basename` (posix): everything after the last slash. -/
def pyBasename (s : String) : String :=
  String.mk ((s.data.reverse.takeWhile (fun c => c ≠ '/')).reverse)

/-! ### Configuration (`parse_args`) -/

/-- Configuration record holding the command-line options of `lod.py`
(`parse_args`).  `run` is `none` or the normalized list of debuggers. -/
structure Options where
  count_of_leaf_source_files : Nat
  library_object_count : Nat
  output_directory : String
  generate : Bool
  build : Bool
  run : Option (List String)
  clang : String
  gdb : String
  lldb : String
  stats : Bool
  cflags : String

/-! ### Naming, partitioning and paths -/

/-- Number of libraries: `math.ceil(count_of_leaf_source_files /
library_object_count)` evaluated exactly (Python computes the same value
through float division for all realistic sizes).  Meaningful only when
`library_object_count ≠ 0`; Python raises `ZeroDivisionError` there, which
the run model `run_generate` accounts for. -/
def num_libraries (o : Options) : Nat :=
  (o.count_of_leaf_source_files + o.library_object_count - 1) / o.library_object_count

/-- Guarded library count: `get_num_libraries_to_build` raises
`ZeroDivisionError` when the capacity is `0`, modelled as `none`. -/
def get_num_libraries_to_build (o : Options) : Option Nat :=
  if o.library_object_count = 0 then none else some (num_libraries o)

/-- Width used to pad leaf indices: `len(str(count_of_leaf_source_files))`. -/
def get_src_name_padding (o : Options) : Nat :=
  (pyStr o.count_of_leaf_source_files).length

/-- Width used to pad library indices: `len(str(num_libraries))` (raises for
capacity 0 in Python; total here, used only on guarded paths). -/
def get_lib_name_padding (o : Options) : Nat :=
  (pyStr (num_libraries o)).length

/-- Partition of the leaf index range owned by library `lib_index`:
`(lib_index * capacity, min (lib_index * capacity + capacity) leafCount)`. -/
def get_lib_src_indices (o : Options) (lib_index : Nat) : Nat × Nat :=
  let src_start := lib_index * o.library_object_count
  let src_end := src_start + o.library_object_count
  (src_start, min src_end o.count_of_leaf_source_files)

def get_build_directory (o : Options) : String :=
  o.output_directory

def get_src_directory (o : Options) : String :=
  pyJoin (get_build_directory o) "src"

def get_obj_directory (o : Options) : String :=
  pyJoin (get_build_directory o) "obj"

def get_lib_directory (o : Options) : String :=
  pyJoin (get_build_directory o) "lib"

def get_bin_directory (o : Options) : String :=
  pyJoin (get_build_directory o) "bin"

/-- Path of a generated source file: `<src dir>/<pre>_<padded index>.cpp`,
the index padded to leaf-count width (`get_src_name_padding`).  `pre` is the
`prefix` keyword argument of the Python function (default `"src"`). -/
def get_source_file_path (o : Options) (file_index : Nat) (pre : String) : String :=
  pyJoin (get_src_directory o) (pre ++ "_" ++ pad file_index (get_src_name_padding o) ++ ".cpp")

/-- Path of the object file derived from a source file:
`<obj dir>/basename(src_file.replace(".cpp", ".o"))`. -/
def get_obj_file_path (o : Options) (src_file : String) : String :=
  pyJoin (get_obj_directory o) (pyBasename (pyReplace src_file ".cpp" ".o"))

/-- Path of a library archive: `<lib dir>/lib_<padded index>.a`, the index
padded to library-count width (`get_lib_name_padding`). -/
def get_lib_file_path (o : Options) (lib_index : Nat) : String :=
  pyJoin (get_lib_directory o) ("lib_" ++ pad lib_index (get_lib_name_padding o) ++ ".a")

def get_get_bin_file_path (o : Options) (name : String) : String :=
  pyJoin (get_bin_directory o) name

def get_main_exe (o : Options) : String :=
  get_get_bin_file_path o "lod"

def get_ninja_file_path (o : Options) : String :=
  pyJoin (get_build_directory o) "build.ninja"

/-- Directories created by `create_output_dirs`, in creation order. -/
def created_dirs (o : Options) : List String :=
  [get_build_directory o, get_src_directory o, get_obj_directory o,
   get_lib_directory o, get_bin_directory o]

/-! ### Generated file contents -/

/-- Text of a leaf translation unit before the interpolated function name
(`generate_obj_source_file`), transcribed verbatim from the f-string. -/
def leaf_template_head : String :=
  "\n"
  ++ "        #include <vector>\n"
  ++ "        #include <set>\n"
  ++ "        #include <list>\n"
  ++ "        #include <map>\n"
  ++ "        #include <unordered_map>\n"
  ++ "        #include <unordered_set>\n"
  ++ "        #include <deque>\n"
  ++ "        #include <string>\n"
  ++ "        #include <bitset>\n"
  ++ "        #include <tuple>\n"
  ++ "\n"
  ++ "        int src_"

/-- Text of a leaf translation unit after the interpolated function name:
the fixed battery of container operations. -/
def leaf_template_tail : String :=
  "() \x7b\n"
  ++ "            std::set<int> s;\n"
  ++ "            s.insert(1);\n"
  ++ "\n"
  ++ "            std::list<int> l;\n"
  ++ "            l.emplace_back(1);\n"
  ++ "\n"
  ++ "            std::map<int, int> m;\n"
  ++ "            m[1] = 1;\n"
  ++ "\n"
  ++ "            std::unordered_map<int, bool> um;\n"
  ++ "            um[1] = false;\n"
  ++ "\n"
  ++ "            std::unordered_set<double> us;\n"
  ++ "            us.insert(1.0);\n"
  ++ "\n"
  ++ "            std::deque<int> d;\n"
  ++ "            d.push_front(1);\n"
  ++ "\n"
  ++ "            std::bitset<8> b8;\n"
  ++ "            b8.set(1);\n"
  ++ "\n"
  ++ "            std::bitset<16> b16;\n"
  ++ "            b16.set(1);\n"
  ++ "\n"
  ++ "            std::string str = \"hello\";\n"
  ++ "\n"
  ++ "            std::tuple<int, int, int> t = std::make_tuple(1, 2, 3);\n"
  ++ "            std::get<0>(t);\n"
  ++ "\n"
  ++ "            std::vector<int> v;\n"
  ++ "            v.push_back((1));\n"
  ++ "            return v.back();\n"
  ++ "        \x7d\n"
  ++ "        "

/-- Contents written by `generate_obj_source_file` for leaf `src_index`. -/
def leaf_contents (o : Options) (src_index : Nat) : String :=
  leaf_template_head ++ pad src_index (get_src_name_padding o) ++ leaf_template_tail

/-- Python's `range(start, end)` over the partition bounds of library
`lib_index` (empty when the end is not past the start). -/
def lib_src_range (o : Options) (lib_index : Nat) : List Nat :=
  List.range' (get_lib_src_indices o lib_index).1
    ((get_lib_src_indices o lib_index).2 - (get_lib_src_indices o lib_index).1)

/-- Contents written by `generate_lib_source_file` for library `lib_index`:
one forward declaration per leaf in the partition, then a library function
summing the calls of exactly those leaves. -/
def lib_contents (o : Options) (lib_index : Nat) : String :=
  let lib_padding := get_lib_name_padding o
  let src_padding := get_src_name_padding o
  String.join ((lib_src_range o lib_index).map
      (fun src => "int src_" ++ pad src src_padding ++ "();\n"))
  ++ "\n"
  ++ "int lib_" ++ pad lib_index lib_padding ++ "() \x7b\n"
  ++ "  int ret = 0;\n"
  ++ String.join ((lib_src_range o lib_index).map
      (fun src => "  ret += src_" ++ pad src src_padding ++ "();\n"))
  ++ "  return ret;\n"
  ++ "\x7d\n"

/-- Contents written by `generate_main_source_file`: one forward declaration
per library function, then `main` summing the calls of all of them. -/
def main_contents (o : Options) : String :=
  let num_lib_files := num_libraries o
  let padding := get_lib_name_padding o
  String.join ((List.range num_lib_files).map
      (fun src => "int lib_" ++ pad src padding ++ "();\n"))
  ++ "\n"
  ++ "int main() \x7b\n"
  ++ "  int ret = 0;\n"
  ++ String.join ((List.range num_lib_files).map
      (fun src => "  ret += lib_" ++ pad src padding ++ "();\n"))
  ++ "  return ret;\n"
  ++ "\x7d\n"

/-! ### Build plan (`generate_ninja_file`) -/

/-- Leaf source paths returned by `generate_obj_source_files`, in
generation order. -/
def obj_src_paths (o : Options) : List String :=
  (List.range o.count_of_leaf_source_files).map (fun i => get_source_file_path o i "src")

/-- Library source paths returned by `generate_lib_source_files`, in
generation order.  (Python raises for capacity 0 before building this list;
total here, used only on guarded paths.) -/
def lib_src_paths (o : Options) : List String :=
  (List.range (num_libraries o)).map (fun i => get_source_file_path o i "lib")

/-- The singleton list returned by `generate_main_source_files`. -/
def main_src_paths (o : Options) : List String :=
  [get_source_file_path o 0 "main"]

/-- Python's list slice `l[a:b]` for nonnegative bounds. -/
def pySlice (l : List α) (a b : Nat) : List α :=
  (l.drop a).take (b - a)

/-- For every library index: its archive path paired with the source files
whose objects go into the archive (that partition's slice of the leaf
sources plus the library's own source). -/
def split_object_files_into_libraries (o : Options) (obj_src lib_src : List String) :
    List (String × List String) :=
  (List.range (num_libraries o)).map (fun i =>
    (get_lib_file_path o i,
     pySlice obj_src (get_lib_src_indices o i).1 (get_lib_src_indices o i).2
       ++ [lib_src.getD i ""]))

/-- The four lines emitted by the local helper `section(name)`. -/
def section_lines (name : String) : List String :=
  ["", "#", "# " ++ name, "#"]

/-- One compile edge per source file, in the order the sources are passed
(the `for src_file in obj_src + lib_src + main_src` loop). -/
def compile_edge_lines (o : Options) (srcs : List String) : List String :=
  srcs.map (fun src_file => "build " ++ get_obj_file_path o src_file ++ ": cc " ++ src_file)

/-- One archive edge per library, in partition order (the
`for lib_name, lib_sources in libraries` loop). -/
def archive_edge_lines (o : Options) (libraries : List (String × List String)) :
    List String :=
  libraries.map (fun lib =>
    "build " ++ lib.1 ++ ": archive "
      ++ String.intercalate " " (lib.2.map (fun s => get_obj_file_path o s)))

/-- The single link edge: the executable built from the root object followed
by every library artifact in partition order. -/
def link_edge_line (o : Options) (main_src : List String)
    (libraries : List (String × List String)) : String :=
  "build " ++ get_get_bin_file_path o "lod" ++ ": link "
    ++ String.intercalate " "
        (main_src.map (fun s => get_obj_file_path o s)
          ++ libraries.map (fun lib => lib.1))

/-- Every line of the generated `build.ninja`, in emission order
(`generate_ninja_file`; each `print` adds one line). -/
def ninja_lines (o : Options) (obj_src lib_src main_src : List String) : List String :=
  let c := o.clang
  let cflags := "-Wall -Wextra -O0 -g -gsplit-dwarf " ++ o.cflags
  let linker := o.clang
  let linkflags := "-g"
  let libraries := split_object_files_into_libraries o obj_src lib_src
  section_lines "Variables"
  ++ ["c = " ++ c, "cflags = " ++ cflags, "linker = " ++ linker,
      "linkflags = " ++ linkflags]
  ++ section_lines "Rules"
  ++ ["rule cc", "  command = $c $cflags -c $in -o $out",
      "rule archive", "  command = ar rcs $out $in",
      "rule link", "  command = $linker $linkflags -o $out $in"]
  ++ section_lines "Build object files"
  ++ compile_edge_lines o (obj_src ++ lib_src ++ main_src)
  ++ section_lines "Build libraries"
  ++ archive_edge_lines o libraries
  ++ section_lines "Build main executable"
  ++ [link_edge_line o main_src libraries]
  ++ section_lines "Define the default target"
  ++ ["default " ++ get_get_bin_file_path o "lod"]

/-- Contents of the generated `build.ninja` file. -/
def ninja_contents (o : Options) : String :=
  String.join ((ninja_lines o (obj_src_paths o) (lib_src_paths o) (main_src_paths o)).map
    (fun l => l ++ "\n"))

/-! ### The generation run -/

/-- The file writes performed by `generate_source_files` followed by
`generate_ninja_file`, in order, with `true` for a completed run.  When the
library capacity is 0, `generate_lib_source_files` raises `ZeroDivisionError`
in `get_num_libraries_to_build` after every leaf file has been written and
before any library file is written: modelled as the leaf writes with `false`. -/
def run_generate (o : Options) : List (String × String) × Bool :=
  let objWrites := (List.range o.count_of_leaf_source_files).map
    (fun i => (get_source_file_path o i "src", leaf_contents o i))
  if o.library_object_count = 0 then (objWrites, false)
  else
    let libWrites := (List.range (num_libraries o)).map
      (fun i => (get_source_file_path o i "lib", lib_contents o i))
    let mainWrites := [(get_source_file_path o 0 "main", main_contents o)]
    let ninjaWrites := [(get_ninja_file_path o, ninja_contents o)]
    (objWrites ++ libWrites ++ mainWrites ++ ninjaWrites, true)

/-- The generate branch of `main`: `create_output_dirs` (the directories
created, in order) followed by the generation run. -/
def lod_run (o : Options) : List String × (List (String × String) × Bool) :=
  (created_dirs o, run_generate o)

/-! ### Decimal strings: basic facts -/

theorem pyStr_data_of_ne_zero {n : Nat} (h : n ≠ 0) :
    (pyStr n).data = ((Nat.digits 10 n).map Nat.digitChar).reverse := by
  simp [pyStr, h]

theorem pyStr_data_zero : (pyStr 0).data = ['0'] := rfl

theorem digitChar_isDigit : ∀ d < 10, (Nat.digitChar d).isDigit = true := by decide

theorem digitChar_injOn : ∀ a < 10, ∀ b < 10, Nat.digitChar a = Nat.digitChar b → a = b := by
  decide

theorem digitChar_ne_zeroChar : ∀ d < 10, d ≠ 0 → Nat.digitChar d ≠ '0' := by decide

theorem pyStr_isDigit {n : Nat} : ∀ c ∈ (pyStr n).data, c.isDigit = true := by
  intro c hc
  by_cases h : n = 0
  · subst h; simp only [pyStr_data_zero, List.mem_singleton] at hc; subst hc; decide
  · rw [pyStr_data_of_ne_zero h] at hc
    simp only [List.mem_reverse, List.mem_map] at hc
    obtain ⟨d, hd, rfl⟩ := hc
    exact digitChar_isDigit d (Nat.digits_lt_base (by norm_num) hd)

theorem pyStr_length_pos (n : Nat) : 0 < (pyStr n).length := by
  by_cases h : n = 0
  · subst h; decide
  · have hne : (pyStr n).data ≠ [] := by
      rw [pyStr_data_of_ne_zero h]
      simp [Nat.digits_ne_nil_iff_ne_zero.mpr h]
    exact List.length_pos.mpr hne

theorem pyStr_length_of_ne_zero {n : Nat} (h : n ≠ 0) :
    (pyStr n).length = Nat.log 10 n + 1 := by
  show (pyStr n).data.length = Nat.log 10 n + 1
  rw [pyStr_data_of_ne_zero h]
  simp [Nat.digits_len 10 n (by norm_num) h]

theorem pyStr_length_mono {m n : Nat} (h : m ≤ n) : (pyStr m).length ≤ (pyStr n).length := by
  by_cases hm : m = 0
  · subst hm
    have : (pyStr 0).length = 1 := by decide
    rw [this]
    exact pyStr_length_pos n
  · have hn : n ≠ 0 := by omega
    rw [pyStr_length_of_ne_zero hm, pyStr_length_of_ne_zero hn]
    have := Nat.log_mono_right (b := 10) h
    omega

theorem map_digitChar_injOn : ∀ l₁ l₂ : List Nat, (∀ x ∈ l₁, x < 10) → (∀ x ∈ l₂, x < 10) →
    l₁.map Nat.digitChar = l₂.map Nat.digitChar → l₁ = l₂ := by
  intro l₁
  induction l₁ with
  | nil =>
    intro l₂ _ _ h
    cases l₂ with
    | nil => rfl
    | cons b bs => simp at h
  | cons a as ih =>
    intro l₂ h₁ h₂ h
    cases l₂ with
    | nil => simp at h
    | cons b bs =>
      simp only [List.map_cons, List.cons.injEq] at h
      have ha : a < 10 := h₁ a (by simp)
      have hb : b < 10 := h₂ b (by simp)
      have hab : a = b := digitChar_injOn a ha b hb h.1
      have : as = bs := ih bs (fun x hx => h₁ x (by simp [hx])) (fun x hx => h₂ x (by simp [hx])) h.2
      rw [hab, this]

theorem pyStr_data_injective {m n : Nat} (hd : (pyStr m).data = (pyStr n).data) : m = n := by
  by_cases hm : m = 0 <;> by_cases hn : n = 0
  · omega
  · exfalso
    subst hm
    rw [pyStr_data_zero, pyStr_data_of_ne_zero hn] at hd
    have : (Nat.digits 10 n).map Nat.digitChar = ['0'] := by
      have := congrArg List.reverse hd
      simpa using this.symm
    have hdig : Nat.digits 10 n = [0] := by
      have h10 : (0 : Nat) < 10 := by norm_num
      cases hnd : Nat.digits 10 n with
      | nil => rw [hnd] at this; simp at this
      | cons d ds =>
        rw [hnd] at this
        cases ds with
        | nil =>
          simp only [List.map_cons, List.map_nil, List.cons.injEq, and_true] at this
          have hdlt : d < 10 := Nat.digits_lt_base (by norm_num) (by rw [hnd]; simp)
          have : d = 0 := by
            by_contra hne
            exact digitChar_ne_zeroChar d hdlt hne this
          simp [this]
        | cons e es => simp at this
    have hof := Nat.ofDigits_digits 10 n
    rw [hdig] at hof
    simp [Nat.ofDigits] at hof
    exact hn hof.symm
  · exfalso
    subst hn
    rw [pyStr_data_zero, pyStr_data_of_ne_zero hm] at hd
    have : (Nat.digits 10 m).map Nat.digitChar = ['0'] := by
      have := congrArg List.reverse hd
      simpa using this
    have hdig : Nat.digits 10 m = [0] := by
      cases hnd : Nat.digits 10 m with
      | nil => rw [hnd] at this; simp at this
      | cons d ds =>
        rw [hnd] at this
        cases ds with
        | nil =>
          simp only [List.map_cons, List.map_nil, List.cons.injEq, and_true] at this
          have hdlt : d < 10 := Nat.digits_lt_base (by norm_num) (by rw [hnd]; simp)
          have : d = 0 := by
            by_contra hne
            exact digitChar_ne_zeroChar d hdlt hne this
          simp [this]
        | cons e es => simp at this
    have hof := Nat.ofDigits_digits 10 m
    rw [hdig] at hof
    simp [Nat.ofDigits] at hof
    exact hm hof.symm
  · rw [pyStr_data_of_ne_zero hm, pyStr_data_of_ne_zero hn] at hd
    have hmap : (Nat.digits 10 m).map Nat.digitChar = (Nat.digits 10 n).map Nat.digitChar :=
      List.reverse_injective hd
    have hdig : Nat.digits 10 m = Nat.digits 10 n :=
      map_digitChar_injOn _ _ (fun x hx => Nat.digits_lt_base (by norm_num) hx)
        (fun x hx => Nat.digits_lt_base (by norm_num) hx) hmap
    have := congrArg (Nat.ofDigits 10) hdig
    rwa [Nat.ofDigits_digits, Nat.ofDigits_digits] at this

theorem pyStr_head_ne_zeroChar {n : Nat} (hn : n ≠ 0) {c : Char}
    (hc : (pyStr n).data.head? = some c) : c ≠ '0' := by
  have hL : Nat.digits 10 n ≠ [] := Nat.digits_ne_nil_iff_ne_zero.mpr hn
  rw [pyStr_data_of_ne_zero hn, List.head?_reverse, List.getLast?_map,
      List.getLast?_eq_getLast _ hL] at hc
  simp only [Option.map_some', Option.some.injEq] at hc
  have hlt : (Nat.digits 10 n).getLast hL < 10 :=
    Nat.digits_lt_base (by norm_num) (List.getLast_mem hL)
  have hne : (Nat.digits 10 n).getLast hL ≠ 0 := Nat.getLast_digit_ne_zero 10 hn
  rw [← hc]
  exact digitChar_ne_zeroChar _ hlt hne

theorem eq_zero_of_pyStr_head_zero {n : Nat} (hc : (pyStr n).data.head? = some '0') :
    n = 0 := by
  by_contra hn
  exact pyStr_head_ne_zeroChar hn hc rfl

/-! ### Zero padding: basic facts -/

theorem pad_data (n w : Nat) :
    (pad n w).data = List.replicate (w - (pyStr n).length) '0' ++ (pyStr n).data := by
  simp [pad]

theorem pad_data_length {n w : Nat} (h : (pyStr n).length ≤ w) :
    (pad n w).data.length = w := by
  rw [pad_data]
  simp only [List.length_append, List.length_replicate]
  have : (pyStr n).data.length = (pyStr n).length := rfl
  omega

theorem pad_isDigit {n w : Nat} : ∀ c ∈ (pad n w).data, c.isDigit = true := by
  intro c hc
  rw [pad_data] at hc
  rcases List.mem_append.mp hc with h | h
  · rw [List.eq_of_mem_replicate h]; decide
  · exact pyStr_isDigit c h

theorem pad_not_slash {n w : Nat} : ∀ c ∈ (pad n w).data, c ≠ '/' := by
  intro c hc
  have := pad_isDigit c hc
  intro h
  subst h
  simp at this

theorem pad_not_dot {n w : Nat} : ∀ c ∈ (pad n w).data, c ≠ '.' := by
  intro c hc
  have := pad_isDigit c hc
  intro h
  subst h
  simp at this

theorem pad_aux_length_lt {m n w : Nat} (h₂ : (pyStr n).length ≤ w)
    (hlt : (pyStr m).length < (pyStr n).length)
    (heq : (pad m w).data = (pad n w).data) : False := by
  set a := w - (pyStr m).length with ha
  set b := w - (pyStr n).length with hb
  have hml : (pyStr m).data.length = (pyStr m).length := rfl
  have hnl : (pyStr n).data.length = (pyStr n).length := rfl
  have hba : b < a := by omega
  rw [pad_data, pad_data, ← hb, ← ha] at heq
  have hsplit : List.replicate a '0' =
      List.replicate b '0' ++ List.replicate (a - b) ('0' : Char) := by
    rw [← List.replicate_add]
    congr 1
    omega
  rw [hsplit, List.append_assoc] at heq
  have heq2 : List.replicate (a - b) ('0' : Char) ++ (pyStr m).data = (pyStr n).data :=
    List.append_cancel_left heq
  have hhead : (pyStr n).data.head? = some '0' := by
    rw [← heq2]
    have : a - b ≠ 0 := by omega
    cases hab : a - b with
    | zero => omega
    | succ k => simp [List.replicate_succ]
  have hn0 : n = 0 := eq_zero_of_pyStr_head_zero hhead
  subst hn0
  have : (pyStr 0).length = 1 := by decide
  have := pyStr_length_pos m
  omega

theorem pad_injOn {m n w : Nat} (h₁ : (pyStr m).length ≤ w) (h₂ : (pyStr n).length ≤ w)
    (heq : (pad m w).data = (pad n w).data) : m = n := by
  rcases Nat.lt_trichotomy (pyStr m).length (pyStr n).length with h | h | h
  · exact absurd heq (fun hh => pad_aux_length_lt h₂ h hh)
  · rw [pad_data, pad_data, h] at heq
    have hml : (pyStr m).data.length = (pyStr m).length := rfl
    have hnl : (pyStr n).data.length = (pyStr n).length := rfl
    have := List.append_inj' heq (by omega)
    exact pyStr_data_injective this.2
  · exact absurd heq.symm (fun hh => pad_aux_length_lt h₁ h hh)

/-! ### Partitioner arithmetic -/

theorem le_num_libraries_mul (o : Options) (hc : o.library_object_count ≠ 0) :
    o.count_of_leaf_source_files ≤ num_libraries o * o.library_object_count := by
  have hpos : 0 < o.library_object_count := Nat.pos_of_ne_zero hc
  have h := (Nat.div_le_iff_le_mul_add_pred hpos
    (a := o.count_of_leaf_source_files + o.library_object_count - 1)
    (c := num_libraries o)).mp (Nat.le_refl _)
  have := Nat.mul_comm (num_libraries o) o.library_object_count
  omega

theorem num_libraries_le_of_le_mul (o : Options) (hc : o.library_object_count ≠ 0)
    {m : Nat} (hm : o.count_of_leaf_source_files ≤ m * o.library_object_count) :
    num_libraries o ≤ m := by
  have hpos : 0 < o.library_object_count := Nat.pos_of_ne_zero hc
  refine (Nat.div_le_iff_le_mul_add_pred hpos).mpr ?_
  have := Nat.mul_comm m o.library_object_count
  omega

theorem num_libraries_le_leaf_count (o : Options) (hc : o.library_object_count ≠ 0) :
    num_libraries o ≤ o.count_of_leaf_source_files := by
  refine num_libraries_le_of_le_mul o hc ?_
  have hpos : 0 < o.library_object_count := Nat.pos_of_ne_zero hc
  calc o.count_of_leaf_source_files
      = o.count_of_leaf_source_files * 1 := by omega
    _ ≤ o.count_of_leaf_source_files * o.library_object_count :=
        Nat.mul_le_mul_left _ hpos

theorem start_lt_leaf_count (o : Options) (hc : o.library_object_count ≠ 0)
    {j : Nat} (hj : j < num_libraries o) :
    j * o.library_object_count < o.count_of_leaf_source_files := by
  by_contra h
  have := @num_libraries_le_of_le_mul o hc j (by omega)
  omega

theorem num_libraries_eq_zero_iff (o : Options) (hc : o.library_object_count ≠ 0) :
    num_libraries o = 0 ↔ o.count_of_leaf_source_files = 0 := by
  constructor
  · intro h
    have := le_num_libraries_mul o hc
    rw [h] at this
    omega
  · intro h
    have h1 : num_libraries o ≤ 0 := num_libraries_le_of_le_mul o hc (by omega)
    omega

/-- Coverage and uniqueness: every leaf index lies in exactly one partition,
namely the one with index `i / capacity`. -/
theorem partition_cover (o : Options) (hc : o.library_object_count ≠ 0)
    {i : Nat} (hi : i < o.count_of_leaf_source_files) :
    ∃! j, j < num_libraries o ∧
      (get_lib_src_indices o j).1 ≤ i ∧ i < (get_lib_src_indices o j).2 := by
  have hpos : 0 < o.library_object_count := Nat.pos_of_ne_zero hc
  refine ⟨i / o.library_object_count, ⟨?_, ?_, ?_⟩, ?_⟩
  · have h1 : i < num_libraries o * o.library_object_count :=
      Nat.lt_of_lt_of_le hi (le_num_libraries_mul o hc)
    exact (Nat.div_lt_iff_lt_mul hpos).mpr h1
  · simpa [get_lib_src_indices] using Nat.div_mul_le_self i o.library_object_count
  · simp only [get_lib_src_indices, lt_min_iff]
    constructor
    · have hmod := Nat.div_add_mod i o.library_object_count
      have hlt := Nat.mod_lt i hpos
      have := Nat.mul_comm (i / o.library_object_count) o.library_object_count
      omega
    · exact hi
  · rintro j ⟨_, hstart, hend⟩
    simp only [get_lib_src_indices, lt_min_iff] at hstart hend
    have h1 : j ≤ i / o.library_object_count :=
      (Nat.le_div_iff_mul_le hpos).mpr hstart
    have hsm : (j + 1) * o.library_object_count
        = j * o.library_object_count + o.library_object_count := Nat.succ_mul j _
    have h2 : i / o.library_object_count < j + 1 :=
      (Nat.div_lt_iff_lt_mul hpos).mpr (by omega)
    omega

/-- Contiguity: each partition after the first starts where the previous
one ends. -/
theorem partition_contiguous (o : Options) (hc : o.library_object_count ≠ 0)
    {j : Nat} (hj : j + 1 < num_libraries o) :
    (get_lib_src_indices o j).2 = (get_lib_src_indices o (j + 1)).1 := by
  have hlt : (j + 1) * o.library_object_count < o.count_of_leaf_source_files :=
    start_lt_leaf_count o hc hj
  have hsm : (j + 1) * o.library_object_count
      = j * o.library_object_count + o.library_object_count := Nat.succ_mul j _
  simp only [get_lib_src_indices]
  rw [min_eq_left (by omega)]
  omega

/-- Nonemptiness: every partition index below the library count owns at
least one leaf. -/
theorem partition_nonempty (o : Options) (hc : o.library_object_count ≠ 0)
    {j : Nat} (hj : j < num_libraries o) :
    (get_lib_src_indices o j).1 < (get_lib_src_indices o j).2 := by
  have h1 : j * o.library_object_count < o.count_of_leaf_source_files :=
    start_lt_leaf_count o hc hj
  have hpos : 0 < o.library_object_count := Nat.pos_of_ne_zero hc
  simp only [get_lib_src_indices, lt_min_iff]
  omega

/-! ### Replace, basename and join: characterizations -/

theorem replaceList_nil (pat rep : List Char) : replaceList pat rep [] = [] := by
  simp [replaceList]

theorem replaceList_cons_pos {pat : List Char} (rep : List Char) {c : Char} {cs : List Char}
    (h : pat.isPrefixOf (c :: cs)) (hne : pat ≠ []) :
    replaceList pat rep (c :: cs) = rep ++ replaceList pat rep ((c :: cs).drop pat.length) := by
  rw [replaceList]
  simp [h, hne]

theorem replaceList_cons_neg {pat : List Char} (rep : List Char) {c : Char} {cs : List Char}
    (h : ¬ pat.isPrefixOf (c :: cs)) :
    replaceList pat rep (c :: cs) = c :: replaceList pat rep cs := by
  rw [replaceList]
  simp [h]

theorem replaceList_skip {p : Char} (ps rep : List Char) (zs ws : List Char)
    (hz : ∀ c ∈ zs, c ≠ p) :
    replaceList (p :: ps) rep (zs ++ ws) = zs ++ replaceList (p :: ps) rep ws := by
  induction zs with
  | nil => rfl
  | cons c cs ih =>
    have hc : c ≠ p := hz c (by simp)
    have hnp : ¬ (p :: ps).isPrefixOf (c :: (cs ++ ws)) := by
      rw [ List.isPrefixOf_iff_prefix]
      intro hpre
      rw [List.cons_prefix_cons] at hpre
      exact hc hpre.1.symm
    show replaceList (p :: ps) rep (c :: (cs ++ ws)) = c :: (cs ++ replaceList (p :: ps) rep ws)
    rw [replaceList_cons_neg rep hnp, ih (fun x hx => hz x (by simp [hx]))]

theorem replaceList_exact {pat : List Char} (rep : List Char) (hne : pat ≠ []) :
    replaceList pat rep pat = rep := by
  cases hp : pat with
  | nil => exact absurd hp hne
  | cons c cs =>
    have hself : (c :: cs).isPrefixOf (c :: cs) := by
      rw [ List.isPrefixOf_iff_prefix]
    rw [@replaceList_cons_pos (c :: cs) rep c cs hself (by simp)]
    have hd : (c :: cs).drop (c :: cs).length = [] := List.drop_length _
    rw [hd, replaceList_nil, List.append_nil]

/-- A replacement whose pattern contains no slash distributes over a slash. -/
theorem replaceList_slash (pat rep : List Char) (hp : pat ≠ []) (hs : '/' ∉ pat) :
    ∀ n A nm, A.length = n →
      replaceList pat rep (A ++ '/' :: nm) =
        replaceList pat rep A ++ '/' :: replaceList pat rep nm := by
  intro n
  induction n using Nat.strong_induction_on with
  | _ n ih =>
    intro A nm hlen
    cases hA : A with
    | nil =>
      obtain ⟨p, ps, hpp⟩ : ∃ p ps, pat = p :: ps := by
        cases pat with
        | nil => exact absurd rfl hp
        | cons p ps => exact ⟨p, ps, rfl⟩
      have hps : p ≠ '/' := by
        intro h
        exact hs (by rw [hpp, h]; simp)
      have hnp : ¬ pat.isPrefixOf ('/' :: nm) := by
        rw [hpp, List.isPrefixOf_iff_prefix]
        intro hpre
        rw [List.cons_prefix_cons] at hpre
        exact hps hpre.1
      simp only [List.nil_append]
      rw [replaceList_cons_neg rep hnp, replaceList_nil, List.nil_append]
    | cons c cs =>
      subst hA
      by_cases hpre : pat.isPrefixOf (c :: cs)
      · have hple : pat.length ≤ (c :: cs).length :=
          List.IsPrefix.length_le ( List.isPrefixOf_iff_prefix.mp hpre)
        have hpre2 : pat.isPrefixOf (c :: (cs ++ '/' :: nm)) := by
          rw [ List.isPrefixOf_iff_prefix] at hpre ⊢
          exact hpre.trans (List.prefix_append (c :: cs) ('/' :: nm))
        show replaceList pat rep (c :: (cs ++ '/' :: nm))
            = replaceList pat rep (c :: cs) ++ '/' :: replaceList pat rep nm
        rw [@replaceList_cons_pos pat rep c (cs ++ '/' :: nm) hpre2 hp,
            @replaceList_cons_pos pat rep c cs hpre hp]
        have e2 : (c :: (cs ++ '/' :: nm)).drop pat.length
            = ((c :: cs).drop pat.length) ++ '/' :: nm := by
          show ((c :: cs) ++ '/' :: nm).drop pat.length = _
          rw [List.drop_append_eq_append_drop]
          have h0 : pat.length - (c :: cs).length = 0 := by omega
          rw [h0, List.drop_zero]
        rw [e2]
        have hlt : ((c :: cs).drop pat.length).length < n := by
          rw [List.length_drop]
          have hpl : 0 < pat.length := List.length_pos.mpr hp
          simp only [List.length_cons] at hlen ⊢
          omega
        rw [ih _ hlt _ nm rfl, List.append_assoc]
      · have hnp2 : ¬ pat.isPrefixOf (c :: (cs ++ '/' :: nm)) := by
          rw [ List.isPrefixOf_iff_prefix]
          intro hcon
          apply hpre
          rw [ List.isPrefixOf_iff_prefix]
          rcases le_or_lt pat.length (c :: cs).length with hle | hgt
          · have h1 : pat = (c :: (cs ++ '/' :: nm)).take pat.length := by
              obtain ⟨t, ht⟩ := hcon
              rw [← ht]
              exact (List.take_left' rfl).symm
            have h2 : pat = ((c :: cs) ++ '/' :: nm).take pat.length := h1
            rw [List.take_append_eq_append_take] at h2
            have h0 : pat.length - (c :: cs).length = 0 := by omega
            rw [h0, List.take_zero, List.append_nil] at h2
            rw [h2]
            exact List.take_prefix _ _
          · exfalso
            apply hs
            obtain ⟨t, ht⟩ := hcon
            have h1 : pat = (c :: (cs ++ '/' :: nm)).take pat.length := by
              rw [← ht]
              exact (List.take_left' rfl).symm
            have h2 : pat = ((c :: cs) ++ '/' :: nm).take pat.length := h1
            rw [List.take_append_eq_append_take] at h2
            have h3 : ('/' :: nm).take (pat.length - (c :: cs).length) =
                '/' :: nm.take (pat.length - (c :: cs).length - 1) := by
              cases hd : pat.length - (c :: cs).length with
              | zero => omega
              | succ k => simp
            rw [h3] at h2
            rw [h2]
            simp
        show replaceList pat rep (c :: (cs ++ '/' :: nm))
            = replaceList pat rep (c :: cs) ++ '/' :: replaceList pat rep nm
        rw [replaceList_cons_neg rep hnp2, replaceList_cons_neg rep hpre]
        rw [ih cs.length (by simp only [List.length_cons] at hlen; omega) cs nm rfl]
        rfl

theorem takeWhile_append_all {α : Type} {p : α → Bool} {l₁ l₂ : List α}
    (h : ∀ a ∈ l₁, p a = true) :
    (l₁ ++ l₂).takeWhile p = l₁ ++ l₂.takeWhile p := by
  induction l₁ with
  | nil => rfl
  | cons a as ih =>
    have ha : p a = true := h a (by simp)
    simp [List.takeWhile_cons, ha, ih (fun x hx => h x (by simp [hx]))]

theorem pyBasename_of_split (X Y : List Char) (hY : ∀ c ∈ Y, c ≠ '/') :
    pyBasename (String.mk (X ++ '/' :: Y)) = String.mk Y := by
  unfold pyBasename
  congr 1
  show ((X ++ '/' :: Y).reverse.takeWhile (fun c => c ≠ '/')).reverse = Y
  rw [List.reverse_append, List.reverse_cons, List.append_assoc]
  have h1 : ∀ a ∈ Y.reverse, (fun c => decide (c ≠ '/')) a = true := by
    intro a ha
    simp only [decide_eq_true_eq]
    exact hY a (List.mem_reverse.mp ha)
  rw [takeWhile_append_all h1]
  have h2 : (['/'] ++ X.reverse).takeWhile (fun c => decide (c ≠ '/')) = [] := by
    simp [List.takeWhile_cons]
  rw [h2, List.append_nil, List.reverse_reverse]

/-- The prefix that `os.path.join` puts before a relative second component:
the first component, with a slash appended unless it is empty or already
ends in one. -/
def dir_pre (a : String) : String :=
  if a.data = [] ∨ a.data.getLast? = some '/' then a else a ++ "/"

theorem pyJoin_rel (a b : String) (hb : b.data.head? ≠ some '/') :
    pyJoin a b = dir_pre a ++ b := by
  unfold pyJoin dir_pre
  rw [if_neg hb]
  by_cases h : a.data = [] ∨ a.data.getLast? = some '/'
  · rw [if_pos h, if_pos h]
  · rw [if_neg h, if_neg h]

theorem dir_pre_of_ne (s : String) (h1 : s.data ≠ []) (h2 : s.data.getLast? ≠ some '/') :
    dir_pre s = s ++ "/" := by
  unfold dir_pre
  rw [if_neg (by tauto)]

theorem or_some {a : Char} (x : Option Char) : (some a).or x = some a := rfl

theorem or_ne_slash {x y : Option Char} (hx : x ≠ some '/') (hy : y ≠ some '/') :
    x.or y ≠ some '/' := by
  cases x with
  | none => simpa [Option.or] using hy
  | some c => simpa [Option.or] using hx

theorem str_head_or (s t : String) : (s ++ t).data.head? = s.data.head?.or t.data.head? := by
  rw [String.data_append, List.head?_append]

theorem head?_ne_of_all {l : List Char} (h : ∀ c ∈ l, c ≠ '/') : l.head? ≠ some '/' := by
  intro hc
  have hm : '/' ∈ l := List.mem_of_mem_head? (by rw [hc]; simp)
  exact h _ hm rfl

theorem pyJoin_dir (a seg name : String) (hseg0 : seg.data.head? ≠ some '/')
    (hseg1 : seg.data ≠ []) (hseg2 : seg.data.getLast? ≠ some '/')
    (hname : name.data.head? ≠ some '/') :
    pyJoin (pyJoin a seg) name = dir_pre a ++ seg ++ "/" ++ name := by
  rw [pyJoin_rel a seg hseg0, pyJoin_rel _ name hname]
  have h1 : (dir_pre a ++ seg).data ≠ [] := by
    rw [String.data_append]
    simp [hseg1]
  have h2 : (dir_pre a ++ seg).data.getLast? ≠ some '/' := by
    rw [String.data_append, List.getLast?_append,
        List.getLast?_eq_getLast seg.data hseg1, or_some]
    rw [List.getLast?_eq_getLast seg.data hseg1] at hseg2
    exact hseg2
  rw [dir_pre_of_ne _ h1 h2]

/-! ### Path normal forms -/

theorem get_source_file_path_eq (o : Options) (i : Nat) (pre : String)
    (hpre : pre.data.head? ≠ some '/') :
    get_source_file_path o i pre =
      dir_pre o.output_directory ++ "src" ++ "/"
        ++ (pre ++ "_" ++ pad i (get_src_name_padding o) ++ ".cpp") := by
  unfold get_source_file_path get_src_directory get_build_directory
  rw [pyJoin_dir _ _ _ (by decide) (by decide) (by decide) ?_]
  rw [str_head_or, str_head_or, str_head_or]
  exact or_ne_slash
    (or_ne_slash (or_ne_slash hpre (by decide)) (head?_ne_of_all pad_not_slash)) (by decide)

theorem get_lib_file_path_eq (o : Options) (j : Nat) :
    get_lib_file_path o j =
      dir_pre o.output_directory ++ "lib" ++ "/"
        ++ ("lib_" ++ pad j (get_lib_name_padding o) ++ ".a") := by
  unfold get_lib_file_path get_lib_directory get_build_directory
  rw [pyJoin_dir _ _ _ (by decide) (by decide) (by decide) ?_]
  rw [str_head_or, str_head_or]
  rw [show ("lib_" : String).data.head? = some 'l' from rfl, or_some, or_some]
  decide

theorem get_main_exe_eq (o : Options) :
    get_main_exe o = dir_pre o.output_directory ++ "bin" ++ "/" ++ "lod" := by
  unfold get_main_exe get_get_bin_file_path get_bin_directory get_build_directory
  rw [pyJoin_dir _ _ _ (by decide) (by decide) (by decide) (by decide)]

theorem get_ninja_file_path_eq (o : Options) :
    get_ninja_file_path o = dir_pre o.output_directory ++ "build.ninja" := by
  unfold get_ninja_file_path get_build_directory
  rw [pyJoin_rel _ _ (by decide)]

theorem get_obj_file_path_eq (o : Options) (i : Nat) (pre : String)
    (hpre0 : pre.data.head? ≠ some '/')
    (hdot : ∀ c ∈ pre.data, c ≠ '.')
    (hslash : ∀ c ∈ pre.data, c ≠ '/') :
    get_obj_file_path o (get_source_file_path o i pre) =
      dir_pre o.output_directory ++ "obj" ++ "/"
        ++ (pre ++ "_" ++ pad i (get_src_name_padding o) ++ ".o") := by
  rw [get_source_file_path_eq o i pre hpre0]
  unfold get_obj_file_path get_obj_directory get_build_directory
  have e1 : ("_" : String).data = ['_'] := rfl
  have e2 : ("/" : String).data = ['/'] := rfl
  have hdata : (dir_pre o.output_directory ++ "src" ++ "/"
      ++ (pre ++ "_" ++ pad i (get_src_name_padding o) ++ ".cpp")).data
      = ((dir_pre o.output_directory).data ++ ("src" : String).data)
        ++ '/' :: ((pre.data ++ '_' :: (pad i (get_src_name_padding o)).data)
          ++ (".cpp" : String).data) := by
    simp only [String.data_append, e1, e2, List.append_assoc, List.singleton_append,
      List.cons_append, List.nil_append]
  have hzs : ∀ c ∈ pre.data ++ '_' :: (pad i (get_src_name_padding o)).data, c ≠ '.' := by
    intro c hc
    rcases List.mem_append.mp hc with h | h
    · exact hdot c h
    · rcases List.mem_cons.mp h with h | h
      · subst h; decide
      · exact pad_not_dot c h
  have hzslash : ∀ c ∈ (pre.data ++ '_' :: (pad i (get_src_name_padding o)).data)
      ++ (".o" : String).data, c ≠ '/' := by
    intro c hc
    rcases List.mem_append.mp hc with h | h
    · rcases List.mem_append.mp h with h | h
      · exact hslash c h
      · rcases List.mem_cons.mp h with h | h
        · subst h; decide
        · exact pad_not_slash c h
    · rcases List.mem_cons.mp h with h | h
      · subst h; decide
      · rcases List.mem_cons.mp h with h | h
        · subst h; decide
        · simp at h
  have hrep : pyReplace (dir_pre o.output_directory ++ "src" ++ "/"
      ++ (pre ++ "_" ++ pad i (get_src_name_padding o) ++ ".cpp")) ".cpp" ".o"
      = String.mk (((replaceList (".cpp" : String).data (".o" : String).data
          ((dir_pre o.output_directory).data ++ ("src" : String).data)))
        ++ '/' :: ((pre.data ++ '_' :: (pad i (get_src_name_padding o)).data)
          ++ (".o" : String).data)) := by
    unfold pyReplace
    rw [hdata]
    rw [replaceList_slash (".cpp" : String).data (".o" : String).data (by decide) (by decide)
      ((dir_pre o.output_directory).data ++ ("src" : String).data).length _ _ rfl]
    congr 1
    congr 1
    have hpat : (".cpp" : String).data = '.' :: ['c', 'p', 'p'] := rfl
    rw [hpat]
    rw [replaceList_skip _ _ _ _ (fun c hc => hzs c hc)]
    rw [replaceList_exact _ (by simp)]
  rw [hrep]
  rw [pyBasename_of_split _ _ (fun c hc => hzslash c hc)]
  rw [pyJoin_dir _ _ _ (by decide) (by decide) (by decide)
    (head?_ne_of_all (fun c hc => hzslash c hc))]
  congr 1
  apply String.ext
  simp only [String.data_append, e1, List.append_assoc, List.singleton_append,
    List.cons_append, List.nil_append]

/-! ### Slices of the generated source list -/

theorem range'_take_drop {s e leaf : Nat} (hs : s ≤ e) (he : e ≤ leaf) :
    ((List.range' 0 leaf).drop s).take (e - s) = List.range' s (e - s) := by
  have h1 : List.range' 0 s ++ List.range' s (leaf - s) = List.range' 0 leaf := by
    have h := List.range'_append_1 0 s (leaf - s)
    rw [Nat.zero_add] at h
    rw [h]
    congr 1
    omega
  have h2 : (List.range' 0 leaf).drop s = List.range' s (leaf - s) := by
    rw [← h1, List.drop_left' (List.length_range' ..)]
  have h3 : List.range' s (e - s) ++ List.range' (s + (e - s)) (leaf - s - (e - s)) =
      List.range' s (leaf - s) := by
    have h := List.range'_append_1 s (e - s) (leaf - s - (e - s))
    rw [h]
    congr 1
    omega
  rw [h2, ← h3, List.take_left' (List.length_range' ..)]

theorem pySlice_obj_src (o : Options) {s e : Nat} (hs : s ≤ e)
    (he : e ≤ o.count_of_leaf_source_files) :
    pySlice (obj_src_paths o) s e =
      (List.range' s (e - s)).map (fun i => get_source_file_path o i "src") := by
  unfold pySlice obj_src_paths
  rw [← List.map_drop, ← List.map_take]
  congr 1
  rw [List.range_eq_range']
  exact range'_take_drop hs he

/-! ### Example configurations -/

/-- The spec's example scenario: 5 leaves, capacity 2, default-ish strings. -/
def exampleOptions : Options :=
  ⟨5, 2, "build", true, false, none, "/opt/llvm/bin/clang++", "gdb", "lldb", false, ""⟩

/-! ### Claim C1 -/

/-- Everything C1 asserts about the partitioner, for one configuration. -/
def PartitionSpec (o : Options) : Prop :=
  get_num_libraries_to_build o = some (num_libraries o) ∧
  o.count_of_leaf_source_files ≤ num_libraries o * o.library_object_count ∧
  (∀ m, o.count_of_leaf_source_files ≤ m * o.library_object_count → num_libraries o ≤ m) ∧
  (∀ j, get_lib_src_indices o j =
    (j * o.library_object_count,
      min ((j + 1) * o.library_object_count) o.count_of_leaf_source_files)) ∧
  (∀ j, j + 1 < num_libraries o →
    (get_lib_src_indices o j).2 = (get_lib_src_indices o (j + 1)).1) ∧
  (∀ j i, j < num_libraries o → (get_lib_src_indices o j).1 ≤ i →
    i < (get_lib_src_indices o j).2 → i < o.count_of_leaf_source_files) ∧
  (∀ i, i < o.count_of_leaf_source_files →
    ∃! j, j < num_libraries o ∧
      (get_lib_src_indices o j).1 ≤ i ∧ i < (get_lib_src_indices o j).2)

/-- C1: for every `leafCount ≥ 0` and `libraryCapacity ≥ 1` the partitioner
produces exactly `ceil(leafCount / libraryCapacity)` ranges (characterized as
the least `m` with `leafCount ≤ m * capacity`), range `j` being
`[j*capacity, min((j+1)*capacity, leafCount))`; the ranges are contiguous,
stay inside `[0, leafCount)`, and every leaf index belongs to exactly one
range. -/
theorem partition_exact_cover (o : Options) (hcap : 1 ≤ o.library_object_count) :
    PartitionSpec o := by
  have hc : o.library_object_count ≠ 0 := by omega
  refine ⟨?_, le_num_libraries_mul o hc, fun m hm => num_libraries_le_of_le_mul o hc hm,
    ?_, fun j hj => partition_contiguous o hc hj, ?_, fun i hi => partition_cover o hc hi⟩
  · simp [get_num_libraries_to_build, hc]
  · intro j
    have hsm : (j + 1) * o.library_object_count
        = j * o.library_object_count + o.library_object_count := Nat.succ_mul j _
    simp only [get_lib_src_indices, hsm]
  · intro j i hj h1 h2
    simp only [get_lib_src_indices, lt_min_iff] at h2
    exact h2.2

/-- Witness for C1 at the example configuration. -/
theorem partition_exact_cover_witness : PartitionSpec exampleOptions :=
  partition_exact_cover exampleOptions (by decide)

/-! ### Claim C10 -/

/-- Everything C10 asserts, for one configuration: every partition is
nonempty, so every library unit declares at least one leaf and every archive
edge has at least one leaf-object input. -/
def PartitionNonemptySpec (o : Options) : Prop :=
  ∀ j, j < num_libraries o →
    (get_lib_src_indices o j).1 < (get_lib_src_indices o j).2 ∧
    lib_src_range o j ≠ [] ∧
    1 ≤ (pySlice (obj_src_paths o) (get_lib_src_indices o j).1
          (get_lib_src_indices o j).2).length

/-- C10: for `leafCount ≥ 1` and `libraryCapacity ≥ 1`, every partition
`(start, end)` satisfies `start < end`; hence each library unit declares at
least one leaf function and each archive edge gets at least one leaf object
input. -/
theorem partitions_nonempty (o : Options) (hleaf : 1 ≤ o.count_of_leaf_source_files)
    (hcap : 1 ≤ o.library_object_count) : PartitionNonemptySpec o := by
  intro j hj
  have hc : o.library_object_count ≠ 0 := by omega
  have hne := partition_nonempty o hc hj
  refine ⟨hne, ?_, ?_⟩
  · unfold lib_src_range
    have : 0 < (get_lib_src_indices o j).2 - (get_lib_src_indices o j).1 := by omega
    intro hcon
    have := congrArg List.length hcon
    rw [List.length_range'] at this
    simp at this
    omega
  · have hs : (get_lib_src_indices o j).1 ≤ (get_lib_src_indices o j).2 := by omega
    have he : (get_lib_src_indices o j).2 ≤ o.count_of_leaf_source_files := by
      simp only [get_lib_src_indices]
      omega
    rw [pySlice_obj_src o hs he, List.length_map, List.length_range']
    omega

/-- Witness for C10 at the example configuration. -/
theorem partitions_nonempty_witness : PartitionNonemptySpec exampleOptions :=
  partitions_nonempty exampleOptions (by decide) (by decide)

/-! ### Data-level path forms and distinctness -/

theorem src_path_data (o : Options) (i : Nat) (pre : String)
    (hpre : pre.data.head? ≠ some '/') :
    (get_source_file_path o i pre).data
      = (dir_pre o.output_directory).data
        ++ 's' :: 'r' :: 'c' :: '/'
          :: (pre.data ++ '_' :: ((pad i (get_src_name_padding o)).data
            ++ ['.', 'c', 'p', 'p'])) := by
  rw [get_source_file_path_eq o i pre hpre]
  have e1 : ("src" : String).data = ['s', 'r', 'c'] := rfl
  have e2 : ("/" : String).data = ['/'] := rfl
  have e3 : ("_" : String).data = ['_'] := rfl
  have e4 : (".cpp" : String).data = ['.', 'c', 'p', 'p'] := rfl
  simp only [String.data_append, e1, e2, e3, e4, List.append_assoc, List.cons_append,
    List.singleton_append, List.nil_append]

theorem obj_path_data (o : Options) (i : Nat) (pre : String)
    (hpre0 : pre.data.head? ≠ some '/')
    (hdot : ∀ c ∈ pre.data, c ≠ '.')
    (hslash : ∀ c ∈ pre.data, c ≠ '/') :
    (get_obj_file_path o (get_source_file_path o i pre)).data
      = (dir_pre o.output_directory).data
        ++ 'o' :: 'b' :: 'j' :: '/'
          :: (pre.data ++ '_' :: ((pad i (get_src_name_padding o)).data
            ++ ['.', 'o'])) := by
  rw [get_obj_file_path_eq o i pre hpre0 hdot hslash]
  have e1 : ("obj" : String).data = ['o', 'b', 'j'] := rfl
  have e2 : ("/" : String).data = ['/'] := rfl
  have e3 : ("_" : String).data = ['_'] := rfl
  have e4 : (".o" : String).data = ['.', 'o'] := rfl
  simp only [String.data_append, e1, e2, e3, e4, List.append_assoc, List.cons_append,
    List.singleton_append, List.nil_append]

theorem lib_file_path_data (o : Options) (j : Nat) :
    (get_lib_file_path o j).data
      = (dir_pre o.output_directory).data
        ++ 'l' :: 'i' :: 'b' :: '/' :: 'l' :: 'i' :: 'b' :: '_'
          :: ((pad j (get_lib_name_padding o)).data ++ ['.', 'a']) := by
  rw [get_lib_file_path_eq o j]
  have e1 : ("lib" : String).data = ['l', 'i', 'b'] := rfl
  have e2 : ("/" : String).data = ['/'] := rfl
  have e3 : ("lib_" : String).data = ['l', 'i', 'b', '_'] := rfl
  have e4 : (".a" : String).data = ['.', 'a'] := rfl
  simp only [String.data_append, e1, e2, e3, e4, List.append_assoc, List.cons_append,
    List.singleton_append, List.nil_append]

theorem main_exe_data (o : Options) :
    (get_main_exe o).data
      = (dir_pre o.output_directory).data ++ ['b', 'i', 'n', '/', 'l', 'o', 'd'] := by
  rw [get_main_exe_eq o]
  have e1 : ("bin" : String).data = ['b', 'i', 'n'] := rfl
  have e2 : ("/" : String).data = ['/'] := rfl
  have e3 : ("lod" : String).data = ['l', 'o', 'd'] := rfl
  simp only [String.data_append, e1, e2, e3, List.append_assoc, List.cons_append,
    List.singleton_append, List.nil_append]

theorem ninja_path_data (o : Options) :
    (get_ninja_file_path o).data
      = (dir_pre o.output_directory).data
        ++ ['b', 'u', 'i', 'l', 'd', '.', 'n', 'i', 'n', 'j', 'a'] := by
  rw [get_ninja_file_path_eq o]
  have e1 : ("build.ninja" : String).data
      = ['b', 'u', 'i', 'l', 'd', '.', 'n', 'i', 'n', 'j', 'a'] := rfl
  simp only [String.data_append, e1]

theorem source_path_inj (o : Options) (pre : String) (hpre : pre.data.head? ≠ some '/')
    {i j : Nat} (hi : i ≤ o.count_of_leaf_source_files) (hj : j ≤ o.count_of_leaf_source_files)
    (h : get_source_file_path o i pre = get_source_file_path o j pre) : i = j := by
  have hd := congrArg String.data h
  rw [src_path_data o i pre hpre, src_path_data o j pre hpre] at hd
  have hT := List.append_cancel_left hd
  simp only [List.cons.injEq, true_and] at hT
  have hT2 := List.append_cancel_left hT
  simp only [List.cons.injEq, true_and] at hT2
  have hfin := List.append_inj' hT2 rfl
  exact pad_injOn (pyStr_length_mono hi) (pyStr_length_mono hj) hfin.1

theorem source_path_ne_pre (o : Options) (i j : Nat) (pre₁ pre₂ : String)
    {c₁ c₂ : Char} {r₁ r₂ : List Char}
    (h₁ : pre₁.data = c₁ :: r₁) (h₂ : pre₂.data = c₂ :: r₂) (hcc : c₁ ≠ c₂)
    (hp1 : pre₁.data.head? ≠ some '/') (hp2 : pre₂.data.head? ≠ some '/') :
    get_source_file_path o i pre₁ ≠ get_source_file_path o j pre₂ := by
  intro h
  have hd := congrArg String.data h
  rw [src_path_data o i pre₁ hp1, src_path_data o j pre₂ hp2] at hd
  have hT := List.append_cancel_left hd
  rw [h₁, h₂] at hT
  simp only [List.cons_append, List.cons.injEq, true_and] at hT
  exact hcc hT.1

theorem obj_path_inj (o : Options) (pre : String) (hpre0 : pre.data.head? ≠ some '/')
    (hdot : ∀ c ∈ pre.data, c ≠ '.') (hslash : ∀ c ∈ pre.data, c ≠ '/')
    {i j : Nat} (hi : i ≤ o.count_of_leaf_source_files) (hj : j ≤ o.count_of_leaf_source_files)
    (h : get_obj_file_path o (get_source_file_path o i pre)
        = get_obj_file_path o (get_source_file_path o j pre)) : i = j := by
  have hd := congrArg String.data h
  rw [obj_path_data o i pre hpre0 hdot hslash, obj_path_data o j pre hpre0 hdot hslash] at hd
  have hT := List.append_cancel_left hd
  simp only [List.cons.injEq, true_and] at hT
  have hT2 := List.append_cancel_left hT
  simp only [List.cons.injEq, true_and] at hT2
  have hfin := List.append_inj' hT2 rfl
  exact pad_injOn (pyStr_length_mono hi) (pyStr_length_mono hj) hfin.1

theorem obj_path_ne_pre (o : Options) (i j : Nat) (pre₁ pre₂ : String)
    {c₁ c₂ : Char} {r₁ r₂ : List Char}
    (h₁ : pre₁.data = c₁ :: r₁) (h₂ : pre₂.data = c₂ :: r₂) (hcc : c₁ ≠ c₂)
    (hp1 : pre₁.data.head? ≠ some '/')
    (hd1 : ∀ c ∈ pre₁.data, c ≠ '.') (hs1 : ∀ c ∈ pre₁.data, c ≠ '/')
    (hp2 : pre₂.data.head? ≠ some '/')
    (hd2 : ∀ c ∈ pre₂.data, c ≠ '.') (hs2 : ∀ c ∈ pre₂.data, c ≠ '/') :
    get_obj_file_path o (get_source_file_path o i pre₁)
      ≠ get_obj_file_path o (get_source_file_path o j pre₂) := by
  intro h
  have hd := congrArg String.data h
  rw [obj_path_data o i pre₁ hp1 hd1 hs1, obj_path_data o j pre₂ hp2 hd2 hs2] at hd
  have hT := List.append_cancel_left hd
  rw [h₁, h₂] at hT
  simp only [List.cons_append, List.cons.injEq, true_and] at hT
  exact hcc hT.1

theorem source_path_ne_obj_path (o : Options) (i j : Nat) (pre₁ pre₂ : String)
    (hp1 : pre₁.data.head? ≠ some '/')
    (hp2 : pre₂.data.head? ≠ some '/')
    (hd2 : ∀ c ∈ pre₂.data, c ≠ '.') (hs2 : ∀ c ∈ pre₂.data, c ≠ '/') :
    get_source_file_path o i pre₁
      ≠ get_obj_file_path o (get_source_file_path o j pre₂) := by
  intro h
  have hd := congrArg String.data h
  rw [src_path_data o i pre₁ hp1, obj_path_data o j pre₂ hp2 hd2 hs2] at hd
  have hT := List.append_cancel_left hd
  simp at hT

theorem lib_file_path_inj (o : Options) {i j : Nat}
    (hi : i ≤ num_libraries o) (hj : j ≤ num_libraries o)
    (h : get_lib_file_path o i = get_lib_file_path o j) : i = j := by
  have hd := congrArg String.data h
  rw [lib_file_path_data o i, lib_file_path_data o j] at hd
  have hT := List.append_cancel_left hd
  simp only [List.cons.injEq, true_and] at hT
  have hfin := List.append_inj' hT rfl
  exact pad_injOn (pyStr_length_mono hi) (pyStr_length_mono hj) hfin.1

theorem lib_file_ne_source_path (o : Options) (i j : Nat) (pre : String)
    (hpre : pre.data.head? ≠ some '/') :
    get_lib_file_path o i ≠ get_source_file_path o j pre := by
  intro h
  have hd := congrArg String.data h
  rw [lib_file_path_data o i, src_path_data o j pre hpre] at hd
  have hT := List.append_cancel_left hd
  simp at hT

theorem lib_file_ne_obj_path (o : Options) (i j : Nat) (pre : String)
    (hpre : pre.data.head? ≠ some '/')
    (hdot : ∀ c ∈ pre.data, c ≠ '.') (hslash : ∀ c ∈ pre.data, c ≠ '/') :
    get_lib_file_path o i ≠ get_obj_file_path o (get_source_file_path o j pre) := by
  intro h
  have hd := congrArg String.data h
  rw [lib_file_path_data o i, obj_path_data o j pre hpre hdot hslash] at hd
  have hT := List.append_cancel_left hd
  simp at hT

theorem main_exe_ne_source_path (o : Options) (j : Nat) (pre : String)
    (hpre : pre.data.head? ≠ some '/') :
    get_main_exe o ≠ get_source_file_path o j pre := by
  intro h
  have hd := congrArg String.data h
  rw [main_exe_data o, src_path_data o j pre hpre] at hd
  have hT := List.append_cancel_left hd
  simp at hT

theorem main_exe_ne_obj_path (o : Options) (j : Nat) (pre : String)
    (hpre : pre.data.head? ≠ some '/')
    (hdot : ∀ c ∈ pre.data, c ≠ '.') (hslash : ∀ c ∈ pre.data, c ≠ '/') :
    get_main_exe o ≠ get_obj_file_path o (get_source_file_path o j pre) := by
  intro h
  have hd := congrArg String.data h
  rw [main_exe_data o, obj_path_data o j pre hpre hdot hslash] at hd
  have hT := List.append_cancel_left hd
  simp at hT

theorem main_exe_ne_lib_file (o : Options) (j : Nat) :
    get_main_exe o ≠ get_lib_file_path o j := by
  intro h
  have hd := congrArg String.data h
  rw [main_exe_data o, lib_file_path_data o j] at hd
  have hT := List.append_cancel_left hd
  simp at hT

theorem main_exe_ne_ninja (o : Options) : get_main_exe o ≠ get_ninja_file_path o := by
  intro h
  have hd := congrArg String.data h
  rw [main_exe_data o, ninja_path_data o] at hd
  have hT := List.append_cancel_left hd
  simp at hT

theorem ninja_ne_source_path (o : Options) (j : Nat) (pre : String)
    (hpre : pre.data.head? ≠ some '/') :
    get_ninja_file_path o ≠ get_source_file_path o j pre := by
  intro h
  have hd := congrArg String.data h
  rw [ninja_path_data o, src_path_data o j pre hpre] at hd
  have hT := List.append_cancel_left hd
  simp at hT

theorem ninja_ne_obj_path (o : Options) (j : Nat) (pre : String)
    (hpre : pre.data.head? ≠ some '/')
    (hdot : ∀ c ∈ pre.data, c ≠ '.') (hslash : ∀ c ∈ pre.data, c ≠ '/') :
    get_ninja_file_path o ≠ get_obj_file_path o (get_source_file_path o j pre) := by
  intro h
  have hd := congrArg String.data h
  rw [ninja_path_data o, obj_path_data o j pre hpre hdot hslash] at hd
  have hT := List.append_cancel_left hd
  simp at hT

theorem ninja_ne_lib_file (o : Options) (j : Nat) :
    get_ninja_file_path o ≠ get_lib_file_path o j := by
  intro h
  have hd := congrArg String.data h
  rw [ninja_path_data o, lib_file_path_data o j] at hd
  have hT := List.append_cancel_left hd
  simp at hT

/-! ### Claim C9 -/

/-- All source paths handed to the build-plan emitter, in generation order
(`obj_src + lib_src + main_src` in `generate_ninja_file`). -/
def all_src_paths (o : Options) : List String :=
  obj_src_paths o ++ lib_src_paths o ++ main_src_paths o

/-- Every artifact path a run mentions: the generated sources, their object
files, the library archives, the executable, and the build-description
file. -/
def artifact_paths (o : Options) : List String :=
  all_src_paths o
    ++ (all_src_paths o).map (fun s => get_obj_file_path o s)
    ++ (List.range (num_libraries o)).map (fun j => get_lib_file_path o j)
    ++ [get_main_exe o, get_ninja_file_path o]

theorem mem_obj_src_paths {o : Options} {a : String} (ha : a ∈ obj_src_paths o) :
    ∃ i, i < o.count_of_leaf_source_files ∧ a = get_source_file_path o i "src" := by
  unfold obj_src_paths at ha
  rcases List.mem_map.mp ha with ⟨i, hi, rfl⟩
  exact ⟨i, List.mem_range.mp hi, rfl⟩

theorem mem_lib_src_paths {o : Options} {a : String} (ha : a ∈ lib_src_paths o) :
    ∃ i, i < num_libraries o ∧ a = get_source_file_path o i "lib" := by
  unfold lib_src_paths at ha
  rcases List.mem_map.mp ha with ⟨i, hi, rfl⟩
  exact ⟨i, List.mem_range.mp hi, rfl⟩

theorem mem_main_src_paths {o : Options} {a : String} (ha : a ∈ main_src_paths o) :
    a = get_source_file_path o 0 "main" := by
  unfold main_src_paths at ha
  simpa using ha

theorem mem_all_src_paths {o : Options} {a : String} (ha : a ∈ all_src_paths o) :
    ∃ pre i, a = get_source_file_path o i pre ∧ i ≤ o.count_of_leaf_source_files ∧
      (pre = "src" ∨ pre = "lib" ∨ pre = "main") := by
  unfold all_src_paths at ha
  rcases List.mem_append.mp ha with h | h
  · rcases List.mem_append.mp h with h | h
    · rcases mem_obj_src_paths h with ⟨i, hi, rfl⟩
      exact ⟨"src", i, rfl, by omega, Or.inl rfl⟩
    · rcases mem_lib_src_paths h with ⟨i, hi, rfl⟩
      refine ⟨"lib", i, rfl, ?_, Or.inr (Or.inl rfl)⟩
      by_cases hc : o.library_object_count = 0
      · unfold num_libraries at hi
        rw [hc] at hi
        simp at hi
      · have := num_libraries_le_leaf_count o hc
        omega
  · rw [mem_main_src_paths h]
    exact ⟨"main", 0, rfl, Nat.zero_le _, Or.inr (Or.inr rfl)⟩

theorem nodup_obj_src_paths (o : Options) : (obj_src_paths o).Nodup := by
  unfold obj_src_paths
  refine List.Nodup.map_on ?_ (List.nodup_range _)
  intro x hx y hy hxy
  exact source_path_inj o "src" (by decide)
    (Nat.le_of_lt (List.mem_range.mp hx)) (Nat.le_of_lt (List.mem_range.mp hy)) hxy

theorem nodup_lib_src_paths (o : Options) (hc : o.library_object_count ≠ 0) :
    (lib_src_paths o).Nodup := by
  unfold lib_src_paths
  refine List.Nodup.map_on ?_ (List.nodup_range _)
  intro x hx y hy hxy
  have hL := num_libraries_le_leaf_count o hc
  have hx' := List.mem_range.mp hx
  have hy' := List.mem_range.mp hy
  exact source_path_inj o "lib" (by decide) (by omega) (by omega) hxy

theorem nodup_all_src_paths (o : Options) (hc : o.library_object_count ≠ 0) :
    (all_src_paths o).Nodup := by
  unfold all_src_paths
  rw [List.nodup_append, List.nodup_append]
  refine ⟨⟨nodup_obj_src_paths o, nodup_lib_src_paths o hc, ?_⟩, ?_, ?_⟩
  · intro a ha hb
    rcases mem_obj_src_paths ha with ⟨i, _, rfl⟩
    rcases mem_lib_src_paths hb with ⟨j, _, heq⟩
    exact source_path_ne_pre o i j "src" "lib" rfl rfl (by decide) (by decide) (by decide) heq
  · simp [main_src_paths]
  · intro a ha hb
    have hb' := mem_main_src_paths hb
    rcases List.mem_append.mp ha with h | h
    · rcases mem_obj_src_paths h with ⟨i, _, rfl⟩
      exact source_path_ne_pre o i 0 "src" "main" rfl rfl (by decide) (by decide) (by decide) hb'
    · rcases mem_lib_src_paths h with ⟨j, _, rfl⟩
      exact source_path_ne_pre o j 0 "lib" "main" rfl rfl (by decide) (by decide) (by decide) hb'

theorem nodup_obj_block (o : Options) (hc : o.library_object_count ≠ 0) :
    ((all_src_paths o).map (fun s => get_obj_file_path o s)).Nodup := by
  refine List.Nodup.map_on ?_ (nodup_all_src_paths o hc)
  intro x hx y hy hxy
  rcases mem_all_src_paths hx with ⟨p1, i1, rfl, hb1, hp1⟩
  rcases mem_all_src_paths hy with ⟨p2, i2, rfl, hb2, hp2⟩
  rcases hp1 with rfl | rfl | rfl <;> rcases hp2 with rfl | rfl | rfl
  · rw [obj_path_inj o "src" (by decide) (by decide) (by decide) hb1 hb2 hxy]
  · exact absurd hxy (obj_path_ne_pre o i1 i2 "src" "lib" rfl rfl (by decide)
      (by decide) (by decide) (by decide) (by decide) (by decide) (by decide))
  · exact absurd hxy (obj_path_ne_pre o i1 i2 "src" "main" rfl rfl (by decide)
      (by decide) (by decide) (by decide) (by decide) (by decide) (by decide))
  · exact absurd hxy (obj_path_ne_pre o i1 i2 "lib" "src" rfl rfl (by decide)
      (by decide) (by decide) (by decide) (by decide) (by decide) (by decide))
  · rw [obj_path_inj o "lib" (by decide) (by decide) (by decide) hb1 hb2 hxy]
  · exact absurd hxy (obj_path_ne_pre o i1 i2 "lib" "main" rfl rfl (by decide)
      (by decide) (by decide) (by decide) (by decide) (by decide) (by decide))
  · exact absurd hxy (obj_path_ne_pre o i1 i2 "main" "src" rfl rfl (by decide)
      (by decide) (by decide) (by decide) (by decide) (by decide) (by decide))
  · exact absurd hxy (obj_path_ne_pre o i1 i2 "main" "lib" rfl rfl (by decide)
      (by decide) (by decide) (by decide) (by decide) (by decide) (by decide))
  · rw [obj_path_inj o "main" (by decide) (by decide) (by decide) hb1 hb2 hxy]

theorem nodup_archive_block (o : Options) :
    ((List.range (num_libraries o)).map (fun j => get_lib_file_path o j)).Nodup := by
  refine List.Nodup.map_on ?_ (List.nodup_range _)
  intro x hx y hy hxy
  have hx' := List.mem_range.mp hx
  have hy' := List.mem_range.mp hy
  exact lib_file_path_inj o (by omega) (by omega) hxy

/-- C9: for every configuration with `libraryCapacity ≥ 1`, all artifact
paths a run mentions are pairwise distinct: leaf, library and root source
paths, their object paths, the archive paths, the executable and the build
description never collide. -/
theorem artifact_paths_nodup (o : Options) (hcap : 1 ≤ o.library_object_count) :
    (artifact_paths o).Nodup := by
  have hc : o.library_object_count ≠ 0 := by omega
  have hpre3 : ∀ (q : String), q = "src" ∨ q = "lib" ∨ q = "main" →
      (∀ c ∈ q.data, c ≠ '.') ∧ (∀ c ∈ q.data, c ≠ '/') ∧ q.data.head? ≠ some '/' := by
    intro q hq
    rcases hq with rfl | rfl | rfl <;> exact ⟨by decide, by decide, by decide⟩
  unfold artifact_paths
  rw [List.nodup_append, List.nodup_append, List.nodup_append]
  refine ⟨⟨⟨nodup_all_src_paths o hc, nodup_obj_block o hc, ?_⟩,
    nodup_archive_block o, ?_⟩, ?_, ?_⟩
  · -- sources vs object files
    intro a ha hb
    rcases mem_all_src_paths ha with ⟨pre, i, rfl, _, hp⟩
    rcases List.mem_map.mp hb with ⟨s, hs, heq⟩
    rcases mem_all_src_paths hs with ⟨pre2, i2, rfl, _, hp2⟩
    obtain ⟨hd2, hs2, hh2⟩ := hpre3 pre2 hp2
    exact source_path_ne_obj_path o i i2 pre pre2 (hpre3 pre hp).2.2 hh2 hd2 hs2 heq.symm
  · -- sources and object files vs archives
    intro a ha hb
    rcases List.mem_map.mp hb with ⟨j, _, rfl⟩
    rcases List.mem_append.mp ha with h | h
    · rcases mem_all_src_paths h with ⟨pre, i, heq, _, hp⟩
      exact lib_file_ne_source_path o j i pre (hpre3 pre hp).2.2 heq
    · rcases List.mem_map.mp h with ⟨s, hs, heq⟩
      rcases mem_all_src_paths hs with ⟨pre2, i2, rfl, _, hp2⟩
      obtain ⟨hd2, hs2, hh2⟩ := hpre3 pre2 hp2
      exact lib_file_ne_obj_path o j i2 pre2 hh2 hd2 hs2 heq.symm
  · -- executable and build description are distinct
    simp [main_exe_ne_ninja o]
  · -- everything else vs executable and build description
    intro a ha hb
    have h480 : a = get_main_exe o ∨ a = get_ninja_file_path o := by
      rcases List.mem_cons.mp hb with h | h
      · exact Or.inl h
      · exact Or.inr (List.mem_singleton.mp h)
    rcases List.mem_append.mp ha with h | h
    · rcases List.mem_append.mp h with h | h
      · rcases mem_all_src_paths h with ⟨pre, i, rfl, _, hp⟩
        rcases hn : hpre3 pre hp with ⟨hd1, hs1, hh1⟩
        rcases hm : h480 with heq | heq
        · exact main_exe_ne_source_path o i pre hh1 heq.symm
        · exact ninja_ne_source_path o i pre hh1 heq.symm
      · rcases List.mem_map.mp h with ⟨s, hs, heq2⟩
        rcases mem_all_src_paths hs with ⟨pre2, i2, rfl, _, hp2⟩
        obtain ⟨hd2, hs2, hh2⟩ := hpre3 pre2 hp2
        rcases h480 with heq | heq
        · exact main_exe_ne_obj_path o i2 pre2 hh2 hd2 hs2 (heq ▸ heq2).symm
        · exact ninja_ne_obj_path o i2 pre2 hh2 hd2 hs2 (heq ▸ heq2).symm
    · rcases List.mem_map.mp h with ⟨j, _, rfl⟩
      rcases h480 with heq | heq
      · exact main_exe_ne_lib_file o j heq.symm
      · exact ninja_ne_lib_file o j heq.symm

/-- Witness for C9 at the example configuration. -/
theorem artifact_paths_nodup_witness : (artifact_paths exampleOptions).Nodup :=
  artifact_paths_nodup exampleOptions (by decide)

/-! ### Claims C2, C3, C4 -/

theorem get_src_directory_eq (o : Options) :
    get_src_directory o = dir_pre o.output_directory ++ "src" := by
  unfold get_src_directory get_build_directory
  rw [pyJoin_rel _ _ (by decide)]

theorem get_lib_directory_eq (o : Options) :
    get_lib_directory o = dir_pre o.output_directory ++ "lib" := by
  unfold get_lib_directory get_build_directory
  rw [pyJoin_rel _ _ (by decide)]

/-- Configuration with one leaf and capacity 0 (`--library_object_count 0`). -/
def capacityZeroOptions : Options :=
  ⟨1, 0, "build", true, false, none, "/opt/llvm/bin/clang++", "gdb", "lldb", false, ""⟩

/-- Configuration with 10 leaves and the default capacity 1000, so that the
leaf-count padding width (2) differs from the library-count padding width
(1). -/
def padMismatchOptions : Options :=
  ⟨10, 1000, "build", true, false, none, "/opt/llvm/bin/clang++", "gdb", "lldb", false, ""⟩

theorem pyStr_one : pyStr 1 = "1" := by
  simp [pyStr]
  rfl

theorem pyStr_ten : pyStr 10 = "10" := by
  simp [pyStr]
  rfl

/-- Counterexample to C2: with `leafCount = 1` and `libraryCapacity = 0` the
run does fail (`ZeroDivisionError` modelled as the `false` flag), but not
before a file is written: the leaf source `build/src/src_0.cpp` is already
on disk, and the output directories have been created. -/
theorem capacity_zero_cex :
    (run_generate capacityZeroOptions).2 = false ∧
    (run_generate capacityZeroOptions).1.map Prod.fst = ["build/src/src_0.cpp"] ∧
    created_dirs capacityZeroOptions ≠ [] := by
  have hw : get_src_name_padding capacityZeroOptions = 1 := by
    simp [get_src_name_padding, capacityZeroOptions, pyStr_one]
    rfl
  have hpath : get_source_file_path capacityZeroOptions 0 "src" = "build/src/src_0.cpp" := by
    rw [get_source_file_path_eq _ _ _ (by decide), hw]
    have hdp : dir_pre "build" = "build/" := by decide
    simp [capacityZeroOptions, hdp]
    decide
  refine ⟨rfl, ?_, by decide⟩
  have h2 : (run_generate capacityZeroOptions).1.map Prod.fst
      = [get_source_file_path capacityZeroOptions 0 "src"] := by
    simp [run_generate, capacityZeroOptions, List.range_succ]
  rw [h2, hpath]

/-- Amended C2, for one configuration: with capacity 0 (and any leaf count)
the run fails in `get_num_libraries_to_build`, but only after writing
exactly the leaf source files; no library, root or build-plan file is
written (the output directories are created by `create_output_dirs`
beforehand). -/
def CapacityZeroSpec (o : Options) : Prop :=
  get_num_libraries_to_build o = none ∧
  run_generate o =
    ((List.range o.count_of_leaf_source_files).map
      (fun i => (get_source_file_path o i "src", leaf_contents o i)), false) ∧
  (∀ j, get_source_file_path o j "lib" ∉ (run_generate o).1.map Prod.fst) ∧
  (∀ j, get_source_file_path o j "main" ∉ (run_generate o).1.map Prod.fst) ∧
  get_ninja_file_path o ∉ (run_generate o).1.map Prod.fst

/-- Amended C2: a capacity of 0 makes the run fail with a division error
raised when the library count is first computed — which happens after all
leaf sources are written, not before; no library, root, or build-plan file
is ever written. -/
theorem capacity_zero_fails_after_leaf_writes (o : Options)
    (hcap : o.library_object_count = 0) : CapacityZeroSpec o := by
  have hrun : run_generate o =
      ((List.range o.count_of_leaf_source_files).map
        (fun i => (get_source_file_path o i "src", leaf_contents o i)), false) := by
    simp [run_generate, hcap]
  have hfst : (run_generate o).1.map Prod.fst
      = (List.range o.count_of_leaf_source_files).map
          (fun i => get_source_file_path o i "src") := by
    rw [hrun]
    simp
  refine ⟨by simp [get_num_libraries_to_build, hcap], hrun, ?_, ?_, ?_⟩
  · intro j hmem
    rw [hfst] at hmem
    rcases List.mem_map.mp hmem with ⟨i, _, heq⟩
    exact source_path_ne_pre o j i "lib" "src" rfl rfl (by decide) (by decide) (by decide)
      heq.symm
  · intro j hmem
    rw [hfst] at hmem
    rcases List.mem_map.mp hmem with ⟨i, _, heq⟩
    exact source_path_ne_pre o j i "main" "src" rfl rfl (by decide) (by decide) (by decide)
      heq.symm
  · intro hmem
    rw [hfst] at hmem
    rcases List.mem_map.mp hmem with ⟨i, _, heq⟩
    exact ninja_ne_source_path o i "src" (by decide) heq.symm

/-- Witness for amended C2 at the capacity-0 configuration. -/
theorem capacity_zero_fails_after_leaf_writes_witness : CapacityZeroSpec capacityZeroOptions :=
  capacity_zero_fails_after_leaf_writes capacityZeroOptions (by decide)

/-- Counterexample to C3: at 10 leaves / capacity 1000 the library count is
1, so library-count padding would name the root unit `main_0.cpp`; the
generator actually writes `main_00.cpp`, padded to leaf-count width. -/
theorem main_path_lib_padding_cex :
    num_libraries padMismatchOptions = 1 ∧
    get_lib_name_padding padMismatchOptions = 1 ∧
    "main" ++ "_" ++ pad 0 (get_lib_name_padding padMismatchOptions) ++ ".cpp"
      = "main_0.cpp" ∧
    get_source_file_path padMismatchOptions 0 "main" = "build/src/main_00.cpp" ∧
    get_source_file_path padMismatchOptions 0 "main"
      ≠ get_src_directory padMismatchOptions ++ "/"
          ++ ("main" ++ "_" ++ pad 0 (get_lib_name_padding padMismatchOptions) ++ ".cpp") := by
  have hL : num_libraries padMismatchOptions = 1 := by decide
  have hlp : get_lib_name_padding padMismatchOptions = 1 := by
    simp [get_lib_name_padding, hL, pyStr_one]
    rfl
  have hsp : get_src_name_padding padMismatchOptions = 2 := by
    simp [get_src_name_padding, padMismatchOptions, pyStr_ten]
    rfl
  have hdp : dir_pre "build" = "build/" := by decide
  have hpath : get_source_file_path padMismatchOptions 0 "main" = "build/src/main_00.cpp" := by
    rw [get_source_file_path_eq _ _ _ (by decide), hsp]
    simp [padMismatchOptions, hdp]
    decide
  have hdir : get_src_directory padMismatchOptions = "build/src" := by
    rw [get_src_directory_eq]
    simp [padMismatchOptions, hdp]
  refine ⟨hL, hlp, ?_, hpath, ?_⟩
  · rw [hlp]
    decide
  · rw [hpath, hdir, hlp]
    decide

/-- Amended C3, for one configuration: the root unit path.  The generic
source-path helper applies leaf-count padding (`get_src_name_padding`) to
every source file, the root unit included; when the capacity is nonzero the
root unit is written at exactly that path. -/
def MainPathSpec (o : Options) : Prop :=
  get_source_file_path o 0 "main"
    = get_src_directory o ++ "/"
        ++ ("main" ++ "_" ++ pad 0 (get_src_name_padding o) ++ ".cpp") ∧
  (o.library_object_count ≠ 0 →
    (get_source_file_path o 0 "main", main_contents o) ∈ (run_generate o).1)

/-- Amended C3: the root unit is written to
`<outputRoot>/src/main_<padded 0>.cpp` with the identifier 0 zero-padded to
`len(str(leafCount))` digits — leaf-count width, not library-count width. -/
theorem main_path_uses_leaf_padding (o : Options)
    (hcap : 1 ≤ o.library_object_count) : MainPathSpec o := by
  constructor
  · rw [get_source_file_path_eq _ _ _ (by decide), get_src_directory_eq]
  · intro hc
    have : o.library_object_count ≠ 0 := hc
    simp [run_generate, this]

/-- Witness for amended C3 at the padding-mismatch configuration. -/
theorem main_path_uses_leaf_padding_witness : MainPathSpec padMismatchOptions :=
  main_path_uses_leaf_padding padMismatchOptions (by decide)

/-- Counterexample to C4: at 10 leaves / capacity 1000 library-count padding
would name library 0's source `lib_0.cpp`; the generator actually writes
`lib_00.cpp`, padded to leaf-count width. -/
theorem lib_src_path_lib_padding_cex :
    "lib" ++ "_" ++ pad 0 (get_lib_name_padding padMismatchOptions) ++ ".cpp"
      = "lib_0.cpp" ∧
    get_source_file_path padMismatchOptions 0 "lib" = "build/src/lib_00.cpp" ∧
    get_source_file_path padMismatchOptions 0 "lib"
      ≠ get_src_directory padMismatchOptions ++ "/"
          ++ ("lib" ++ "_" ++ pad 0 (get_lib_name_padding padMismatchOptions) ++ ".cpp") := by
  have hL : num_libraries padMismatchOptions = 1 := by decide
  have hlp : get_lib_name_padding padMismatchOptions = 1 := by
    simp [get_lib_name_padding, hL, pyStr_one]
    rfl
  have hsp : get_src_name_padding padMismatchOptions = 2 := by
    simp [get_src_name_padding, padMismatchOptions, pyStr_ten]
    rfl
  have hdp : dir_pre "build" = "build/" := by decide
  have hpath : get_source_file_path padMismatchOptions 0 "lib" = "build/src/lib_00.cpp" := by
    rw [get_source_file_path_eq _ _ _ (by decide), hsp]
    simp [padMismatchOptions, hdp]
    decide
  have hdir : get_src_directory padMismatchOptions = "build/src" := by
    rw [get_src_directory_eq]
    simp [padMismatchOptions, hdp]
  refine ⟨?_, hpath, ?_⟩
  · rw [hlp]
    decide
  · rw [hpath, hdir, hlp]
    decide

/-- Amended C4, for one configuration: library source paths use leaf-count
padding; the archive paths do use library-count padding; when the capacity
is nonzero each library source in range is written at its path. -/
def LibSrcPathSpec (o : Options) : Prop :=
  ∀ j,
    get_source_file_path o j "lib"
      = get_src_directory o ++ "/"
          ++ ("lib" ++ "_" ++ pad j (get_src_name_padding o) ++ ".cpp") ∧
    get_lib_file_path o j
      = get_lib_directory o ++ "/"
          ++ ("lib" ++ "_" ++ pad j (get_lib_name_padding o) ++ ".a") ∧
    (o.library_object_count ≠ 0 → j < num_libraries o →
      (get_source_file_path o j "lib", lib_contents o j) ∈ (run_generate o).1)

/-- Amended C4: the library units' source files are written to
`<outputRoot>/src/lib_<padded j>.cpp` with `j` zero-padded to
`len(str(leafCount))` digits (leaf-count width); only the library archive
names `lib_<padded j>.a` use library-count width. -/
theorem lib_src_path_uses_leaf_padding (o : Options)
    (hcap : 1 ≤ o.library_object_count) : LibSrcPathSpec o := by
  intro j
  refine ⟨?_, ?_, ?_⟩
  · rw [get_source_file_path_eq _ _ _ (by decide), get_src_directory_eq]
  · rw [get_lib_file_path_eq, get_lib_directory_eq]
    apply String.ext
    have e3 : ("lib_" : String).data = ['l', 'i', 'b', '_'] := rfl
    have e4 : ("lib" ++ "_" : String).data = ['l', 'i', 'b', '_'] := rfl
    simp only [String.data_append, List.append_assoc, e3, e4]
  · intro hc hj
    have hmem : (get_source_file_path o j "lib", lib_contents o j) ∈
        (List.range (num_libraries o)).map
          (fun i => (get_source_file_path o i "lib", lib_contents o i)) :=
      List.mem_map.mpr ⟨j, List.mem_range.mpr hj, rfl⟩
    simp only [run_generate, if_neg hc]
    exact List.mem_append.mpr (Or.inl (List.mem_append.mpr (Or.inl
      (List.mem_append.mpr (Or.inr hmem)))))

/-- Witness for amended C4 at the padding-mismatch configuration. -/
theorem lib_src_path_uses_leaf_padding_witness : LibSrcPathSpec padMismatchOptions :=
  lib_src_path_uses_leaf_padding padMismatchOptions (by decide)

/-! ### Claim C7 -/

/-- C7: the generated text is a deterministic function of the configuration
alone.  Two configurations agreeing on the five fields the generation phase
reads (leaf count, capacity, output directory, compiler path, extra flags)
produce identical writes — in particular the build/run/debugger/stats flags
play no role, and re-running with the same configuration reproduces every
byte. -/
theorem generation_deterministic (o₁ o₂ : Options)
    (h1 : o₁.count_of_leaf_source_files = o₂.count_of_leaf_source_files)
    (h2 : o₁.library_object_count = o₂.library_object_count)
    (h3 : o₁.output_directory = o₂.output_directory)
    (h4 : o₁.clang = o₂.clang)
    (h5 : o₁.cflags = o₂.cflags) :
    run_generate o₁ = run_generate o₂ := by
  cases o₁
  cases o₂
  simp only at h1 h2 h3 h4 h5
  subst h1
  subst h2
  subst h3
  subst h4
  subst h5
  rfl

/-- Generation-relevant fields of the example configuration, with every
generation-irrelevant flag flipped or changed. -/
def exampleOptionsFlipped : Options :=
  ⟨5, 2, "build", false, true, some ["gdb", "lldb"], "/opt/llvm/bin/clang++",
   "gdb-13", "lldb-17", true, ""⟩

/-- Witness for C7: the example configuration and its flag-flipped variant
generate identical writes. -/
theorem generation_deterministic_witness :
    run_generate exampleOptions = run_generate exampleOptionsFlipped :=
  generation_deterministic exampleOptions exampleOptionsFlipped rfl rfl rfl rfl rfl

/-! ### Claim C8 -/

/-- Everything C8 asserts for one configuration with `leafCount = 0`: no
leaf units, no library units, the root unit still emitted with a `main`
that sums nothing and returns 0, and a link edge whose only input is the
root object. -/
def LeafZeroSpec (o : Options) : Prop :=
  num_libraries o = 0 ∧
  obj_src_paths o = [] ∧
  lib_src_paths o = [] ∧
  run_generate o = ([(get_source_file_path o 0 "main", main_contents o),
                     (get_ninja_file_path o, ninja_contents o)], true) ∧
  main_contents o = "\nint main() \x7b\n  int ret = 0;\n  return ret;\n\x7d\n" ∧
  split_object_files_into_libraries o (obj_src_paths o) (lib_src_paths o) = [] ∧
  link_edge_line o (main_src_paths o)
      (split_object_files_into_libraries o (obj_src_paths o) (lib_src_paths o))
    = "build " ++ get_get_bin_file_path o "lod" ++ ": link "
        ++ get_obj_file_path o (get_source_file_path o 0 "main")

/-- C8: when `leafCount = 0` (and `libraryCapacity ≥ 1`) the run writes no
leaf and no library unit, still writes the root unit — whose `main` sums
nothing and returns 0 — and the build plan's link edge lists only the root
object as input. -/
theorem leaf_count_zero_run (o : Options) (hleaf : o.count_of_leaf_source_files = 0)
    (hcap : 1 ≤ o.library_object_count) : LeafZeroSpec o := by
  have hc : o.library_object_count ≠ 0 := by omega
  have hL0 : num_libraries o = 0 := by
    unfold num_libraries
    rw [hleaf]
    exact Nat.div_eq_of_lt (by omega)
  refine ⟨hL0, ?_, ?_, ?_, ?_, ?_, ?_⟩
  · simp [obj_src_paths, hleaf]
  · simp [lib_src_paths, hL0]
  · simp [run_generate, hc, hleaf, hL0]
  · unfold main_contents
    rw [hL0]
    have hj : String.join ([] : List String) = "" := rfl
    simp only [List.range_zero, List.map_nil, hj]
    apply String.ext
    simp only [String.data_append]
    rfl
  · simp [split_object_files_into_libraries, hL0]
  · rw [show split_object_files_into_libraries o (obj_src_paths o) (lib_src_paths o)
        = [] by simp [split_object_files_into_libraries, hL0]]
    unfold link_edge_line main_src_paths
    simp only [List.map_cons, List.map_nil, List.append_nil]
    rfl

/-- Configuration with zero leaves. -/
def leafZeroOptions : Options :=
  ⟨0, 2, "build", true, false, none, "/opt/llvm/bin/clang++", "gdb", "lldb", false, ""⟩

/-- Witness for C8 at a zero-leaf configuration. -/
theorem leaf_count_zero_run_witness : LeafZeroSpec leafZeroOptions :=
  leaf_count_zero_run leafZeroOptions rfl (by decide)

/-! ### Claim C6 -/

/-- Everything C6 asserts for one configuration: each library unit
forward-declares exactly the leaves of its partition (each called once in
the summing body), and every leaf index is declared in exactly one library
unit. -/
def LibUnitSpec (o : Options) : Prop :=
  (∀ j, lib_contents o j =
    String.join ((lib_src_range o j).map
      (fun src => "int src_" ++ pad src (get_src_name_padding o) ++ "();\n"))
    ++ "\n"
    ++ "int lib_" ++ pad j (get_lib_name_padding o) ++ "() \x7b\n"
    ++ "  int ret = 0;\n"
    ++ String.join ((lib_src_range o j).map
      (fun src => "  ret += src_" ++ pad src (get_src_name_padding o) ++ "();\n"))
    ++ "  return ret;\n"
    ++ "\x7d\n") ∧
  (∀ j i, i ∈ lib_src_range o j ↔
    (get_lib_src_indices o j).1 ≤ i ∧ i < (get_lib_src_indices o j).2) ∧
  (∀ j i, i ∈ lib_src_range o j → (lib_src_range o j).count i = 1) ∧
  (∀ i, i < o.count_of_leaf_source_files →
    ∃! j, j < num_libraries o ∧ i ∈ lib_src_range o j)

/-- C6: the library unit for partition `j` covering `[s, e)` declares
exactly the leaf functions with indices in `[s, e)` — no more, no fewer —
and its library function calls each of them exactly once; consequently
every leaf index below the leaf count is declared in exactly one library
unit. -/
theorem lib_units_declare_exact_partition (o : Options)
    (hcap : 1 ≤ o.library_object_count) : LibUnitSpec o := by
  have hc : o.library_object_count ≠ 0 := by omega
  have hmem : ∀ j i, i ∈ lib_src_range o j ↔
      (get_lib_src_indices o j).1 ≤ i ∧ i < (get_lib_src_indices o j).2 := by
    intro j i
    unfold lib_src_range
    rw [List.mem_range'_1]
    simp only [get_lib_src_indices]
    omega
  refine ⟨fun j => rfl, hmem, ?_, ?_⟩
  · intro j i hi
    exact List.count_eq_one_of_mem (List.nodup_range' _ _) hi
  · intro i hi
    obtain ⟨j, hj, huniq⟩ := partition_cover o hc hi
    refine ⟨j, ⟨hj.1, (hmem j i).mpr ⟨hj.2.1, hj.2.2⟩⟩, ?_⟩
    intro k hk
    exact huniq k ⟨hk.1, ((hmem k i).mp hk.2).1, ((hmem k i).mp hk.2).2⟩

/-- Witness for C6 at the example configuration. -/
theorem lib_units_declare_exact_partition_witness : LibUnitSpec exampleOptions :=
  lib_units_declare_exact_partition exampleOptions (by decide)


theorem getLast?_append_of_some {α : Type} {x : α} (l₁ l₂ : List α)
    (h : l₂.getLast? = some x) : (l₁ ++ l₂).getLast? = some x := by
  rw [List.getLast?_append, h]
  rfl

/-! ### Claim C5 -/

/-- Everything C5 asserts for one configuration: the plan consists of the
variable and rule prelude, one compile edge per generated unit in
generation order, one archive edge per partition (inputs: the partition's
leaf objects then its own library object), one link edge (inputs: the root
object then every library artifact in partition order), and a default
target naming the executable. -/
def NinjaPlanSpec (o : Options) : Prop :=
  ninja_lines o (obj_src_paths o) (lib_src_paths o) (main_src_paths o) =
    section_lines "Variables"
    ++ ["c = " ++ o.clang,
        "cflags = " ++ ("-Wall -Wextra -O0 -g -gsplit-dwarf " ++ o.cflags),
        "linker = " ++ o.clang, "linkflags = " ++ "-g"]
    ++ section_lines "Rules"
    ++ ["rule cc", "  command = $c $cflags -c $in -o $out",
        "rule archive", "  command = ar rcs $out $in",
        "rule link", "  command = $linker $linkflags -o $out $in"]
    ++ section_lines "Build object files"
    ++ compile_edge_lines o (all_src_paths o)
    ++ section_lines "Build libraries"
    ++ archive_edge_lines o
        (split_object_files_into_libraries o (obj_src_paths o) (lib_src_paths o))
    ++ section_lines "Build main executable"
    ++ [link_edge_line o (main_src_paths o)
        (split_object_files_into_libraries o (obj_src_paths o) (lib_src_paths o))]
    ++ section_lines "Define the default target"
    ++ ["default " ++ get_main_exe o] ∧
  (all_src_paths o).length = o.count_of_leaf_source_files + num_libraries o + 1 ∧
  (all_src_paths o).Nodup ∧
  (∀ k (h : k < (all_src_paths o).length),
    (compile_edge_lines o (all_src_paths o)).get? k
      = some ("build " ++ get_obj_file_path o ((all_src_paths o).get ⟨k, h⟩)
          ++ ": cc " ++ (all_src_paths o).get ⟨k, h⟩)) ∧
  (archive_edge_lines o
      (split_object_files_into_libraries o (obj_src_paths o) (lib_src_paths o))).length
    = num_libraries o ∧
  (∀ j, j < num_libraries o →
    (archive_edge_lines o
        (split_object_files_into_libraries o (obj_src_paths o) (lib_src_paths o))).get? j
      = some ("build " ++ get_lib_file_path o j ++ ": archive "
          ++ String.intercalate " "
              ((lib_src_range o j).map
                  (fun i => get_obj_file_path o (get_source_file_path o i "src"))
                ++ [get_obj_file_path o (get_source_file_path o j "lib")]))) ∧
  link_edge_line o (main_src_paths o)
      (split_object_files_into_libraries o (obj_src_paths o) (lib_src_paths o))
    = "build " ++ get_main_exe o ++ ": link "
        ++ String.intercalate " "
            (get_obj_file_path o (get_source_file_path o 0 "main")
              :: (List.range (num_libraries o)).map (fun j => get_lib_file_path o j)) ∧
  (ninja_lines o (obj_src_paths o) (lib_src_paths o) (main_src_paths o)).getLast?
    = some ("default " ++ get_main_exe o)

/-- C5: for every configuration with `libraryCapacity ≥ 1` the emitted plan
has exactly one compile edge per generated unit, one archive edge per
partition whose inputs are that partition's leaf objects plus its own
library object, one link edge whose inputs are the root object followed by
every library artifact in partition order, and a default-target declaration
naming the executable. -/
theorem ninja_plan_edges (o : Options) (hcap : 1 ≤ o.library_object_count) :
    NinjaPlanSpec o := by
  have hc : o.library_object_count ≠ 0 := by omega
  refine ⟨rfl, ?_, nodup_all_src_paths o hc, ?_, ?_, ?_, ?_, ?_⟩
  · simp [all_src_paths, obj_src_paths, lib_src_paths, main_src_paths]
    omega
  · intro k h
    unfold compile_edge_lines
    rw [List.get?_map, List.get?_eq_get h]
    rfl
  · simp [archive_edge_lines, split_object_files_into_libraries]
  · intro j hj
    have hse : (get_lib_src_indices o j).1 ≤ (get_lib_src_indices o j).2 := by
      have := start_lt_leaf_count o hc hj
      simp only [get_lib_src_indices]
      omega
    have hel : (get_lib_src_indices o j).2 ≤ o.count_of_leaf_source_files := by
      simp only [get_lib_src_indices]
      omega
    have hgd : (lib_src_paths o).getD j "" = get_source_file_path o j "lib" := by
      rw [List.getD_eq_get?]
      unfold lib_src_paths
      rw [List.get?_map, List.get?_range hj]
      rfl
    have hlist : (pySlice (obj_src_paths o) (get_lib_src_indices o j).1
          (get_lib_src_indices o j).2 ++ [(lib_src_paths o).getD j ""]).map
            (fun s => get_obj_file_path o s)
        = (lib_src_range o j).map
            (fun i => get_obj_file_path o (get_source_file_path o i "src"))
          ++ [get_obj_file_path o (get_source_file_path o j "lib")] := by
      rw [List.map_append, pySlice_obj_src o hse hel, List.map_map, hgd]
      simp only [List.map_cons, List.map_nil]
      rfl
    unfold archive_edge_lines split_object_files_into_libraries
    rw [List.get?_map, List.get?_map, List.get?_range hj]
    simp only [Option.map_some']
    rw [hlist]
  · unfold link_edge_line main_src_paths split_object_files_into_libraries
    rw [List.map_map]
    simp only [List.map_cons, List.map_nil]
    rfl
  · unfold ninja_lines
    repeat apply getLast?_append_of_some
    rfl

/-- Witness for C5 at the example configuration. -/
theorem ninja_plan_edges_witness : NinjaPlanSpec exampleOptions :=
  ninja_plan_edges exampleOptions (by decide)
